import Mathlib

/-!
RFC 5905 skeleton: peer process, clock filter, selection, clock discipline
and poll process.

A shallow embedding of `src/global.c`, `src/main.c` and `src/peer.c`.

* Integer objects (`char`, `int`, `tdist`, `tstamp`, `ipaddr`) are `Int` or `Nat`
  holding their mathematical value; where the C code computes in an unsigned
  type on timestamps or short-format fields the reduction `% 2^32` or
  `% 2^64` is written out.  Where a signed object meets an unsigned 64-bit
  one in a comparison (an `int` poll time and the process time `c.t` in
  `poll_update()` and `clock_adjust()`, the `char` reference identifier and
  the address `p->dstaddr` in `fit()`), the conversion of the signed operand
  to the unsigned type is written out (`toU64`).  A value stored in the `int`
  members `outdate`, `nextdate` and `reach` is reduced to 32 bits, two's
  complement (`toI32`): that is what the conversion of an out-of-range value
  and the `int` addition and shift give on the usual targets.  Other
  arithmetic on `int` objects (counters, poll exponents) is taken without
  overflow.
* A `double` is a `Dbl`: an exact rational, or one of the special values the
  hardware produces for a division by zero or an invalid operation
  (`+inf`, `-inf`, `NaN`).  Rounding, overflow and the sign of zero are not
  represented.
* The association memory is a list of optional records; a pointer
  `struct p *` is an index into it and `NULL` is `Option.none`.
* Expressions the skeleton elides behind a comment and a literal `0`
  (access bits, MAC length, the digest, the multicast test, the validity of
  a key) are read from an
  `Env` record, and so are the contents of freshly allocated memory, the
  value of `random()` and the values of `sqrt`.  A loop the skeleton writes as
  `while (/* all associations */ 0)` runs over the association memory.
* `clock_filter`, `packet`, `receive`, `poll` and `clock_adjust` report a
  call of `clock_select()` and do not run it; `clock_select` is modelled on
  its own.
* The arrays `s.m` and `s.v` hold `NMAX` entries; an access outside an array
  or through a null or dangling pointer is undefined (`none`).
-/

namespace NTP

/-! ## Doubles -/

/-- A C `double`: an exact rational or an IEEE special value. -/
inductive Dbl where
  | fin (q : ℚ)
  | pinf
  | ninf
  | nan
  deriving DecidableEq, Inhabited

namespace Dbl

/-- Unary minus. -/
def neg : Dbl → Dbl
  | fin a => fin (-a)
  | pinf => ninf
  | ninf => pinf
  | nan => nan

/-- Addition; `inf + (-inf)` is invalid. -/
def add : Dbl → Dbl → Dbl
  | fin a, fin b => fin (a + b)
  | nan, _ => nan
  | _, nan => nan
  | pinf, ninf => nan
  | ninf, pinf => nan
  | pinf, _ => pinf
  | _, pinf => pinf
  | ninf, _ => ninf
  | _, ninf => ninf

/-- Subtraction. -/
def sub (a b : Dbl) : Dbl := add a (neg b)

/-- Infinity carrying the sign of the product of an infinity sign and a rational. -/
def infSigned (positive : Bool) (b : ℚ) : Dbl :=
  if b = 0 then nan
  else if decide (0 < b) = positive then pinf else ninf

/-- Multiplication; `inf * 0` is invalid. -/
def mul : Dbl → Dbl → Dbl
  | fin a, fin b => fin (a * b)
  | nan, _ => nan
  | _, nan => nan
  | pinf, fin b => infSigned true b
  | ninf, fin b => infSigned false b
  | fin a, pinf => infSigned true a
  | fin a, ninf => infSigned false a
  | pinf, pinf => pinf
  | ninf, ninf => pinf
  | pinf, ninf => ninf
  | ninf, pinf => ninf

/-- Division; a non-zero number over zero is an infinity, `0/0` and `inf/inf`
are invalid.  Zero is taken as `+0`. -/
def div : Dbl → Dbl → Dbl
  | fin a, fin b =>
      if b = 0 then (if a = 0 then nan else if 0 < a then pinf else ninf)
      else fin (a / b)
  | nan, _ => nan
  | _, nan => nan
  | fin _, pinf => fin 0
  | fin _, ninf => fin 0
  | pinf, fin b => if 0 ≤ b then pinf else ninf
  | ninf, fin b => if 0 ≤ b then ninf else pinf
  | pinf, pinf => nan
  | pinf, ninf => nan
  | ninf, pinf => nan
  | ninf, ninf => nan

instance : Neg Dbl := ⟨neg⟩
instance : Add Dbl := ⟨add⟩
instance : Sub Dbl := ⟨sub⟩
instance : Mul Dbl := ⟨mul⟩
instance : Div Dbl := ⟨div⟩

/-- The C comparison `a < b`; false whenever an operand is NaN. -/
def lt : Dbl → Dbl → Bool
  | fin a, fin b => decide (a < b)
  | nan, _ => false
  | _, nan => false
  | ninf, ninf => false
  | ninf, _ => true
  | _, ninf => false
  | pinf, _ => false
  | _, pinf => true

/-- The C comparison `a <= b`; false whenever an operand is NaN. -/
def le : Dbl → Dbl → Bool
  | fin a, fin b => decide (a ≤ b)
  | nan, _ => false
  | _, nan => false
  | ninf, _ => true
  | _, pinf => true
  | pinf, _ => false
  | _, ninf => false

/-- The C comparison `a > b`. -/
def gt (a b : Dbl) : Bool := lt b a

/-- The C comparison `a >= b`. -/
def ge (a b : Dbl) : Bool := le b a

/-- The library function `fabs`. -/
def fabs : Dbl → Dbl
  | fin a => fin |a|
  | pinf => pinf
  | ninf => pinf
  | nan => nan

/-- The library function `sqrt`, given its values `sq` on the non-negative
rationals: a negative argument is a domain error and yields NaN. -/
def sqrt (sq : ℚ → ℚ) : Dbl → Dbl
  | fin a => if a < 0 then nan else fin (sq a)
  | pinf => pinf
  | ninf => nan
  | nan => nan

/-- Conversion of an integer value to `double`. -/
def ofInt (i : Int) : Dbl := fin (i : ℚ)

/-- Conversion of an unsigned value to `double`. -/
def ofNat (n : Nat) : Dbl := fin (n : ℚ)

end Dbl

/-! ## Constants of `global.c` and `peer.c` -/

/-- Constant `FRIC`: 2^16 as a double. -/
def FRIC : ℚ := 65536
/-- Constant `FRAC`: 2^32 as a double. -/
def FRAC : ℚ := 4294967296

def VERSION : Int := 4
def MINDISP : Dbl := Dbl.fin (1 / 100)
def MAXDISP : Int := 16
def MAXDIST : Int := 1
def NOSYNC : Int := 3
def MAXSTRAT : Int := 16
def MINPOLL : Int := 6
def MAXPOLL : Int := 17
def PHI : Dbl := Dbl.fin (15 / 1000000)
def NSTAGE : Nat := 8
def NMAX : Nat := 50
def NSANE : Int := 1
def NMIN : Int := 3

def S_BCSTENAB : Nat := 1

def P_EPHEM : Nat := 1
def P_BURST : Nat := 2
def P_IBURST : Nat := 4
def P_NOTRUST : Nat := 8
def P_NOPEER : Nat := 16
def P_MANY : Nat := 32

def A_NONE : Int := 0
def A_OK : Int := 1
def A_ERROR : Int := 2
def A_CRYPTO : Int := 3

def X_INIT : Int := 0
def X_STALE : Int := 1
def X_STEP : Int := 2
def X_ERROR : Int := 3
def X_CRYPTO : Int := 4
def X_NKEY : Int := 5

def M_RSVD : Int := 0
def M_SACT : Int := 1
def M_PASV : Int := 2
def M_CLNT : Int := 3
def M_SERV : Int := 4
def M_BCST : Int := 5
def M_BCLN : Int := 6

def SGATE : Int := 3
def BDELAY : Dbl := Dbl.fin (4 / 1000)
def BTIME : Int := 2

def ERR : Int := -1
def DSCRD : Int := 0
def PROC : Int := 1
def BCST : Int := 2
def FXMIT : Int := 3
def MANY : Int := 4
def NEWPS : Int := 5
def NEWBC : Int := 6

/-! ## Conversion and arithmetic macros -/

/-- Macro `LOG2D(a)`: `(a) < 0 ? 1. / (1L << -(a)) : 1L << (a)`, with the shift
taken exactly (the C shift is defined for counts below 63). -/
def LOG2D (a : Int) : Dbl :=
  if a < 0 then Dbl.fin 1 / Dbl.ofNat (1 <<< (-a).toNat) else Dbl.ofNat (1 <<< a.toNat)

/-- Macro `FP2D(r)`: `(double)(r) / FRIC`, the NTP short format in seconds. -/
def FP2D (r : Nat) : Dbl := Dbl.ofNat r / Dbl.fin FRIC

/-- Macro `LFP2D(a)`: `(double)(a) / FRAC`; the argument is an unsigned 64-bit value. -/
def LFP2D (a : Nat) : Dbl := Dbl.ofNat a / Dbl.fin FRAC

/-- Macro `D2LFP(a)`: `(tstamp)((a) * FRAC)`.  The conversion of a double to an
unsigned 64-bit integer discards the fraction; it is undefined when the
truncated value is not representable. -/
def D2LFP (a : Dbl) : Option Nat :=
  match a * Dbl.fin FRAC with
  | Dbl.fin v => if -1 < v ∧ v < 18446744073709551616 then some (Int.toNat (Int.floor v)) else none
  | _ => none

/-- Difference of two timestamps in `tstamp` (unsigned 64-bit) arithmetic. -/
def tsub (a b : Nat) : Nat := Int.toNat (((a : Int) - (b : Int)) % 18446744073709551616)

/-- Conversion of an `int` to `tstamp` (unsigned 64-bit), which the usual
arithmetic conversions make when an `int` is compared with a `tstamp`. -/
def toU64 (x : Int) : Nat := Int.toNat (x % 18446744073709551616)

/-- The value an `int` (32 bits, two's complement) holds when the mathematical
value `x` is stored in it. -/
def toI32 (x : Int) : Int := (x + 2147483648) % 4294967296 - 2147483648

/-- The C expression `x | 1` on an `int` in two's complement: bit 0 set. -/
def ior1 (x : Int) : Int := if x % 2 = 0 then x + 1 else x

/-- The C expression `x & 0x7` on an `int` in two's complement: the three
low-order bits. -/
def iand7 (x : Int) : Int := x % 8

/-- The macro `max(a, b)`: `(a) < (b) ? (b) : (a)`, on doubles. -/
def dmax (a b : Dbl) : Dbl := if Dbl.lt a b then b else a

/-- The macro `min(a, b)`: `(a) < (b) ? (a) : (b)`, on doubles. -/
def dmin (a b : Dbl) : Dbl := if Dbl.lt a b then a else b

/-- The macro `max(a, b)` on integers. -/
def imax (a b : Int) : Int := if a < b then b else a

/-- The macro `min(a, b)` on integers. -/
def imin (a b : Int) : Int := if a < b then a else b

/-- The macro `SQUARE(x)`, `(x * x)`, as it expands when the argument is the
difference `a - b`: the text `a - b * a - b`, that is `a - (b * a) - b`. -/
def SQUARE_diff (a b : Dbl) : Dbl := a - b * a - b

/-! ## Dispatch matrix and authentication filter -/

/-- The initialiser of `int table[7][5]`, row by row. -/
def table : List (List Int) :=
  [ [NEWPS, DSCRD, FXMIT, MANY, NEWBC],
    [PROC, PROC, DSCRD, DSCRD, DSCRD],
    [PROC, ERR, DSCRD, DSCRD, DSCRD],
    [DSCRD, DSCRD, DSCRD, PROC, DSCRD],
    [DSCRD, DSCRD, DSCRD, DSCRD, DSCRD],
    [DSCRD, DSCRD, DSCRD, DSCRD, DSCRD],
    [DSCRD, DSCRD, DSCRD, DSCRD, PROC] ]

/-- The value of the expression `table[(unsigned int)h][(unsigned int)m]` of
`receive()`: the element at offset `5 * h + m` of the array object, which C
lays out row after row; `none` when that offset is outside the object. -/
def tableRead (h m : Int) : Option Int :=
  if 0 ≤ h ∧ 0 ≤ m then table.flatten[(5 * h + m).toNat]? else none

/-- The macro `AUTH(x, y)`:
`((x) ? (y) == A_OK : (y) == A_OK || (y) == A_NONE)`. -/
def AUTH (x y : Int) : Bool :=
  if x ≠ 0 then y == A_OK else (y == A_OK || y == A_NONE)

/-- The rows of the dispatch matrix as the specification prints it, for the
host modes none(0), active(1), passive(2), client(3), server(4), bcast(5),
bclient(6). -/
def specRows : List (List Int) :=
  [ [NEWPS, DSCRD, FXMIT, MANY, NEWBC],
    [PROC, PROC, DSCRD, DSCRD, DSCRD],
    [PROC, ERR, DSCRD, DSCRD, DSCRD],
    [DSCRD, DSCRD, DSCRD, PROC, DSCRD],
    [DSCRD, DSCRD, DSCRD, DSCRD, DSCRD],
    [DSCRD, DSCRD, DSCRD, DSCRD, DSCRD],
    [DSCRD, DSCRD, DSCRD, DSCRD, PROC] ]

/-- The entry of the specification's matrix for host mode `h` and packet mode
`m`; the columns are the packet modes active(1), passive(2), client(3),
server(4), broadcast(5). -/
def specMatrix (h m : Int) : Option Int :=
  if 0 ≤ h ∧ 1 ≤ m ∧ m ≤ 5 then
    (specRows.getD h.toNat [])[(m - 1).toNat]?
  else none

/-! ## Data structures of `global.c` -/

/-- Receive packet, `struct r`.  The member `rec` is named `rcv` here. -/
structure R where
  srcaddr : Nat
  dstaddr : Nat
  version : Int
  leap : Int
  mode : Int
  stratum : Int
  poll : Int
  precision : Int
  rootdelay : Nat
  rootdisp : Nat
  refid : Int
  reftime : Nat
  org : Nat
  rcv : Nat
  xmt : Nat
  keyid : Int
  mac : Nat
  dst : Nat
  deriving DecidableEq, Inhabited

/-- Filter stage, `struct f`. -/
structure F where
  t : Nat
  offset : Dbl
  delay : Dbl
  disp : Dbl
  deriving DecidableEq, Inhabited

/-- Association, `struct p`.  The member `rec` is named `rcv` here; `f` holds
the `NSTAGE` filter stages. -/
structure P where
  srcaddr : Nat
  dstaddr : Nat
  version : Int
  hmode : Int
  keyid : Int
  flags : Nat
  leap : Int
  pmode : Int
  stratum : Int
  ppoll : Int
  rootdelay : Dbl
  rootdisp : Dbl
  refid : Int
  reftime : Nat
  org : Nat
  rcv : Nat
  xmt : Nat
  t : Dbl
  f : List F
  offset : Dbl
  delay : Dbl
  disp : Dbl
  jitter : Dbl
  hpoll : Int
  burst : Int
  reach : Int
  ttl : Int
  unreach : Int
  outdate : Int
  nextdate : Int
  deriving DecidableEq, Inhabited

/-- Chime list entry, `struct m`. -/
structure M where
  p : Option Nat
  type : Int
  edge : Dbl
  deriving DecidableEq, Inhabited

/-- Survivor list entry, `struct v`. -/
structure V where
  p : Option Nat
  metric : Dbl
  deriving DecidableEq, Inhabited

/-- System record, `struct s`. -/
structure S where
  t : Nat
  leap : Int
  stratum : Int
  poll : Int
  precision : Int
  rootdelay : Dbl
  rootdisp : Dbl
  refid : Int
  reftime : Nat
  m : List M
  v : List V
  p : Option Nat
  offset : Dbl
  jitter : Dbl
  flags : Nat
  n : Int
  deriving DecidableEq, Inhabited

/-- Local clock record, `struct c`. -/
structure C where
  t : Nat
  state : Int
  offset : Dbl
  last : Dbl
  count : Int
  freq : Dbl
  jitter : Dbl
  wander : Dbl
  deriving DecidableEq, Inhabited

/-- The program state: the globals `s` and `c` and the association memory. -/
structure State where
  s : S
  c : C
  assoc : List (Option P)
  deriving DecidableEq, Inhabited

/-- What the skeleton leaves to its surroundings. -/
structure Env where
  /-- The access bits `access()` finds for the packet source. -/
  access : R → Int
  /-- The length of the MAC field of the packet. -/
  has_mac : R → Int
  /-- The digest `md5(keyid)`. -/
  md5 : Int → Nat
  /-- Whether the destination address is not a multicast address. -/
  unicast : R → Bool
  /-- The contents of the memory `malloc` returns in `mobilize()`. -/
  fresh : P
  /-- The value of the call `random()` in `clear()`. -/
  random : Nat
  /-- The values of the library function `sqrt` on non-negative arguments. -/
  sq : ℚ → ℚ
  /-- Whether the key with the given identifier is invalid for `peer_xmit()`. -/
  nokey : Int → Bool

/-- The arguments of a call `clock_filter(p, offset, delay, disp)`. -/
structure Sample where
  offset : Dbl
  delay : Dbl
  disp : Dbl
  deriving DecidableEq, Inhabited

/-! ## Poll update, clock filter, root distance and fitness -/

/-- Function `poll_update(p, poll)` of peer.c.  The member `nextdate` is an
`int` and `c.t` a `tstamp`, so `p->nextdate != c.t` and `p->nextdate <= c.t`
compare the `int` converted to the unsigned type, and each value assigned to
`p->nextdate` is the one a 32-bit `int` holds. -/
def poll_update (c : C) (p : P) (poll : Int) : P :=
  let p1 := { p with hpoll := imax (imin MAXPOLL poll) MINPOLL }
  if p1.burst > 0 then
    if toU64 p1.nextdate ≠ c.t then p1
    else
      let p2 := { p1 with nextdate := toI32 (p1.nextdate + BTIME) }
      if toU64 p2.nextdate ≤ c.t then { p2 with nextdate := toI32 ((c.t : Int) + 1) } else p2
  else
    let p2 := { p1 with
      nextdate := toI32 (p1.outdate +
        ((1 <<< (imax (imin p1.ppoll p1.hpoll) MINPOLL).toNat : Nat) : Int)) }
    if toU64 p2.nextdate ≤ c.t then { p2 with nextdate := toI32 ((c.t : Int) + 1) } else p2

/-- One pass of the first loop of `clock_filter()`:
`p->f[i] = p->f[i - 1]; p->f[i].disp += PHI * (c.t - p->t);`. -/
def shiftStage (inc : Dbl) (f : List F) (i : Nat) : List F :=
  let e := f.getD (i - 1) default
  f.set i { e with disp := e.disp + inc }

/-- The first loop of `clock_filter()`, `for (i = 1; i < NSTAGE; i++)`. -/
def filterShift (inc : Dbl) (f : List F) : List F :=
  (List.range' 1 (NSTAGE - 1)).foldl (shiftStage inc) f

/-- One pass of the second loop of `clock_filter()` on the pair
`(p->disp, p->jitter)`:
`p->disp += f[i].disp / (2 ^ (i + 1)); p->jitter += SQUARE(f[i].offset - f[0].offset);`
where `^` is the C exclusive-or. -/
def filterAccum (f : List F) (acc : Dbl × Dbl) (i : Nat) : Dbl × Dbl :=
  ((acc.1 + (f.getD i default).disp / Dbl.ofNat (2 ^^^ (i + 1))),
   (acc.2 + SQUARE_diff (f.getD i default).offset (f.getD 0 default).offset))

/-- Function `clock_filter(p, offset, delay, disp)` of peer.c: the association
afterwards, and whether the call went on to `clock_select()`.  The temporary
list `f[]` is the copy of `p->f[]` the first loop and the assignment of stage
0 make; the source does not reorder it. -/
def clock_filter (env : Env) (s : S) (c : C) (p : P) (offset delay disp : Dbl) : P × Bool :=
  let f1 := filterShift (PHI * (Dbl.ofNat c.t - p.t)) p.f
  let f := f1.set 0 { t := c.t, offset := offset, delay := delay, disp := disp }
  let f0 := f.getD 0 default
  let dtemp := p.offset
  let acc := (List.range NSTAGE).foldl (filterAccum f) (p.disp, p.jitter)
  let p1 := { p with
    f := f, offset := f0.offset, delay := f0.delay, disp := acc.1,
    jitter := dmax (Dbl.sqrt env.sq acc.2) (LOG2D s.precision) }
  if Dbl.le (Dbl.ofNat f0.t - p1.t) (Dbl.fin 0) && s.leap != NOSYNC then (p1, false)
  else if Dbl.gt (Dbl.fabs (p1.offset - dtemp)) (Dbl.ofInt SGATE * p1.jitter)
      && Dbl.lt (Dbl.ofNat f0.t - p1.t) (Dbl.ofInt (2 * s.poll)) then (p1, false)
  else ({ p1 with t := Dbl.ofNat f0.t }, p1.burst == 0)

/-- Function `root_dist(p)` of peer.c. -/
def root_dist (c : C) (p : P) : Dbl :=
  dmax MINDISP (p.rootdelay + p.delay) / Dbl.fin 2 +
    p.rootdisp + p.disp + PHI * (Dbl.ofNat c.t - p.t) + p.jitter

/-- Function `fit(p)` of peer.c.  In `p->refid == p->dstaddr` the `char`
`refid` meets the unsigned 64-bit `ipaddr`, so it is compared after its
conversion to the unsigned type; `p->refid == s.refid` compares two `char`. -/
def fit (s : S) (c : C) (p : P) : Bool :=
  if p.leap = NOSYNC ∨ p.stratum ≥ MAXSTRAT then false
  else if Dbl.gt (root_dist c p) (Dbl.ofInt MAXDIST + PHI * LOG2D s.poll) then false
  else if toU64 p.refid = p.dstaddr ∨ p.refid = s.refid then false
  else if p.reach = 0 then false
  else true

/-! ## Packet processing -/

/-- Result of `packet(p, r)`. -/
structure PacketOut where
  /-- The association when `packet()` returns. -/
  p : P
  /-- The sample handed to `clock_filter()`, if the call is made. -/
  sample : Option Sample
  /-- Whether `clock_filter()` went on to `clock_select()`. -/
  select : Bool
  deriving DecidableEq, Inhabited

/-- The first statements of `packet()`: the header fields copied into the
association. -/
def packet_header (p : P) (r : R) : P :=
  { p with
    leap := r.leap
    stratum := if r.stratum = 0 then MAXSTRAT else r.stratum
    pmode := r.mode
    ppoll := r.poll
    rootdelay := FP2D r.rootdelay
    rootdisp := FP2D r.rootdisp
    refid := r.refid
    reftime := r.reftime }

/-- The sample `packet()` computes from the four timestamps. -/
def packet_sample (s : S) (p : P) (r : R) : Sample :=
  if p.pmode = M_BCST then
    { offset := LFP2D (tsub r.xmt r.dst)
      delay := BDELAY
      disp := LOG2D r.precision + LOG2D s.precision + PHI * Dbl.fin 2 * BDELAY }
  else
    { offset := (LFP2D (tsub r.rcv r.org) + LFP2D (tsub r.dst r.xmt)) / Dbl.fin 2
      delay := dmax (LFP2D (tsub r.dst r.org) - LFP2D (tsub r.rcv r.xmt)) (LOG2D s.precision)
      disp := LOG2D r.precision + LOG2D s.precision + PHI * LFP2D (tsub r.dst r.org) }

/-- Function `packet(p, r)` of peer.c.  The selection `clock_filter()` may start
is reported, not run, so the association is the one `clock_filter()` leaves. -/
def packet (env : Env) (s : S) (c : C) (p : P) (r : R) : PacketOut :=
  let p1 := packet_header p r
  if p1.leap = NOSYNC ∨ p1.stratum ≥ MAXSTRAT then { p := p1, sample := none, select := false }
  else if (r.rootdelay / 2 + r.rootdisp) % 4294967296 ≥ MAXDISP.toNat ∨ p1.reftime > r.xmt then
    { p := p1, sample := none, select := false }
  else
    let p2 := poll_update c p1 p1.hpoll
    let p3 := { p2 with reach := ior1 p2.reach }
    let x := packet_sample s p3 r
    let o := clock_filter env s c p3 x.offset x.delay x.disp
    { p := o.1, sample := some x, select := o.2 }

/-! ## Association memory: clear, mobilize, find -/

/-- The association a pointer refers to, when it refers to a live one. -/
def deref (st : State) (i : Nat) : Option P := st.assoc.getD i none

/-- The general reset of `clear()`.  The call
`memset(BEGIN_CLEAR(p), LEN_CLEAR, 0)` has fill value `LEN_CLEAR` and byte
count 0, so it writes nothing. -/
def clear_fields (env : Env) (s : S) (c : C) (p : P) (kiss : Int) : P :=
  { p with
    leap := NOSYNC
    stratum := MAXSTRAT
    ppoll := MAXPOLL
    hpoll := MINPOLL
    disp := Dbl.ofInt MAXDISP
    jitter := LOG2D s.precision
    refid := kiss
    f := p.f.map fun e => { e with disp := Dbl.ofInt MAXDISP }
    t := Dbl.ofNat c.t
    outdate := toI32 (c.t : Int)
    nextdate := toI32 (toI32 (c.t : Int) +
      ((env.random &&& ((1 <<< MINPOLL.toNat) - 1) : Nat) : Int)) }

/-- Function `clear(p, kiss)` of peer.c; `free(p)` leaves the slot empty. -/
def clear (env : Env) (st : State) (i : Nat) (kiss : Int) : Option State :=
  match deref st i with
  | none => none
  | some p =>
    let s1 := if st.s.p = some i then { st.s with p := none } else st.s
    if kiss ≠ X_INIT ∧ p.flags &&& P_EPHEM ≠ 0 then
      some { st with s := s1, assoc := st.assoc.set i none }
    else
      some { st with s := s1, assoc := st.assoc.set i (some (clear_fields env s1 st.c p kiss)) }

/-- Function `mobilize()` of main.c: the new state and the new pointer.  The
allocation appends a record whose contents are those of the fresh memory;
`clear(p, X_INIT)` never frees, so it is the general reset. -/
def mobilize (env : Env) (st : State) (srcaddr dstaddr : Nat) (version mode keyid : Int)
    (flags : Nat) : State × Nat :=
  let i := st.assoc.length
  let p0 := { env.fresh with
    srcaddr := srcaddr, dstaddr := dstaddr, version := version, hmode := mode,
    keyid := keyid, hpoll := MINPOLL }
  let s1 := if st.s.p = some i then { st.s with p := none } else st.s
  let p1 := clear_fields env s1 st.c p0 X_INIT
  ({ st with s := s1, assoc := st.assoc ++ [some { p1 with flags := flags }] }, i)

/-- The search loop of `find_assoc()`, over the associations from position `i` on. -/
def findFrom (r : R) : List (Option P) → Nat → Option Nat
  | [], _ => none
  | some p :: rest, i =>
      if r.srcaddr = p.srcaddr ∧ r.mode = p.hmode then some i else findFrom r rest (i + 1)
  | none :: rest, i => findFrom r rest (i + 1)

/-- Function `find_assoc(r)` of main.c; its loop over "all associations"
runs over the association memory. -/
def find_assoc (st : State) (r : R) : Option Nat := findFrom r st.assoc 0

/-! ## Receive -/

/-- Result of `receive(r)`. -/
structure RecvOut where
  /-- The state when `receive()` returns. -/
  st : State
  /-- The calls `fast_xmit(r, mode, auth)` made, as pairs `(mode, auth)`. -/
  xmit : List (Int × Int)
  /-- The association handed to `packet(p, r)`, if the call is made. -/
  handed : Option Nat
  /-- The sample `packet()` handed to `clock_filter()`, if any. -/
  sample : Option Sample
  /-- Whether `clock_filter()` went on to `clock_select()`. -/
  select : Bool
  deriving DecidableEq, Inhabited

/-- A return of `receive()` that calls neither `packet()` nor `fast_xmit()`. -/
def quiet (st : State) : RecvOut :=
  { st := st, xmit := [], handed := none, sample := none, select := false }

/-- The authentication code `receive()` derives from the MAC. -/
def auth_code (env : Env) (r : R) : Int :=
  if env.has_mac r = 0 then A_NONE
  else if env.has_mac r = 4 then A_CRYPTO
  else if r.mac ≠ env.md5 r.keyid then A_ERROR
  else A_OK

/-- The part of `receive()` after the dispatch switch: the timestamp checks,
the authentication check and the call of `packet()`, for the association at
pointer `i`.  `none` when the pointer refers to no association. -/
def receive_checks (env : Env) (st : State) (i : Nat) (r : R) (auth : Int) : Option RecvOut :=
  match deref st i with
  | none => none
  | some p =>
    if r.xmt = 0 then some (quiet st)
    else if r.xmt = p.xmt then some (quiet st)
    else
      let synch : Bool :=
        if r.mode ≠ M_BCST then
          (if r.org = 0 then false else if r.org ≠ p.xmt then false else true)
        else true
      let p1 := { p with org := r.xmt, rcv := r.dst }
      let st1 := { st with assoc := st.assoc.set i (some p1) }
      if !synch then some (quiet st1)
      else if auth = A_CRYPTO then (clear env st1 i X_CRYPTO).map quiet
      else if !AUTH (if p1.keyid ≠ 0 ∨ p1.flags &&& P_NOTRUST ≠ 0 then 1 else 0) auth then
        some (quiet st1)
      else
        let o := packet env st1.s st1.c p1 r
        some { st := { st1 with assoc := st1.assoc.set i (some o.p) }
               xmit := []
               handed := some i
               sample := o.sample
               select := o.select }

/-- Function `receive(r)` of peer.c.  In the dispatch section the members
`hmode` and `flags` read through a null pointer are taken as 0 ("the value of
p->hmode is assumed NULL"); `none` stands for a read outside the table or a
later access through a null pointer. -/
def receive (env : Env) (st : State) (r : R) : Option RecvOut :=
  if env.access r = 0 then some (quiet st)
  else if r.version > VERSION then some (quiet st)
  else
    let auth := auth_code env r
    let ptr := find_assoc st r
    let hmode : Int := ((ptr.bind (deref st)).map P.hmode).getD 0
    let flags : Nat := ((ptr.bind (deref st)).map P.flags).getD 0
    match tableRead hmode r.mode with
    | none => none
    | some act =>
      if act = FXMIT then
        if env.unicast r then
          if AUTH ((flags &&& P_NOTRUST : Nat) : Int) auth then
            some { quiet st with xmit := [(M_SERV, auth)] }
          else if auth = A_ERROR then some { quiet st with xmit := [(M_SERV, A_CRYPTO)] }
          else some (quiet st)
        else if st.s.leap = NOSYNC ∨ st.s.stratum > r.stratum then some (quiet st)
        else if AUTH ((flags &&& P_NOTRUST : Nat) : Int) auth then
          some { quiet st with xmit := [(M_SERV, auth)] }
        else some (quiet st)
      else if act = MANY then
        if !AUTH ((flags &&& (P_NOTRUST ||| P_NOPEER) : Nat) : Int) auth then some (quiet st)
        else
          let m := mobilize env st r.srcaddr r.dstaddr r.version M_CLNT r.keyid P_EPHEM
          receive_checks env m.1 m.2 r auth
      else if act = NEWPS then
        if !AUTH ((flags &&& P_NOTRUST : Nat) : Int) auth then
          if auth = A_ERROR then some { quiet st with xmit := [(M_SACT, A_CRYPTO)] }
          else some (quiet st)
        else if !AUTH ((flags &&& P_NOPEER : Nat) : Int) auth then
          some { quiet st with xmit := [(M_SACT, auth)] }
        else
          let m := mobilize env st r.srcaddr r.dstaddr r.version M_PASV r.keyid P_EPHEM
          receive_checks env m.1 m.2 r auth
      else if act = NEWBC then
        if !AUTH ((flags &&& (P_NOTRUST ||| P_NOPEER) : Nat) : Int) auth then some (quiet st)
        else if st.s.flags &&& S_BCSTENAB = 0 then some (quiet st)
        else
          let m := mobilize env st r.srcaddr r.dstaddr r.version M_BCLN r.keyid P_EPHEM
          receive_checks env m.1 m.2 r auth
      else if act = ERR then
        match ptr with
        | none => none
        | some i => (clear env st i X_ERROR).map quiet
      else if act = DSCRD then some (quiet st)
      else
        match ptr with
        | none => none
        | some i => receive_checks env st i r auth

/-! ## Selection: chime list, intersection, survivors, clustering, combining -/

def IGNORE : Int := 0
def SLEW : Int := 1
def STEP : Int := 2
def PANIC : Int := 3

def NSET : Int := 0
def FSET : Int := 1
def SPIK : Int := 2
def FREQ : Int := 3
def SYNC : Int := 4

def STEPT : Dbl := Dbl.fin (128 / 1000)
def WATCH : Int := 900
def PANICT : Int := 1000
def PLL : Int := 65536
/-- Macro `FLL`, the text `MAXPOLL + 1`. -/
def FLL : Int := MAXPOLL + 1
def AVG : Int := 4
def ALLAN : Int := 1500
def LIMIT : Int := 30
def MAXFREQ : Dbl := Dbl.fin (500 / 1000000)
def PGATE : Int := 4

/-- Conversion of a double to `tstamp` (unsigned 64-bit) on assignment: the
fraction is discarded; undefined when the result is not representable. -/
def toTstamp : Dbl → Option Nat
  | Dbl.fin v =>
      if -1 < v ∧ v < 18446744073709551616 then some (Int.toNat (Int.floor v)) else none
  | _ => none

/-- A write `a[k] = x` into an array of `NMAX` entries; `none` when `k` is
outside the array. -/
def arrSet {α : Type} (a : List α) (k : Nat) (x : α) : Option (List α) :=
  if k < NMAX then some (a.set k x) else none

/-- A read `a[k]` from an array of `NMAX` entries; `none` when `k` is outside
the array. -/
def arrGet {α : Type} [Inhabited α] (a : List α) (k : Nat) : Option α :=
  if k < NMAX then some (a.getD k default) else none

/-- The first loop of `clock_select()`, `while (fit(p))`, with the array `s.m`
and the count `n`.  The source never assigns `p`; the pointers it takes in
turn are the list given here, and the loop ends with the list or at the first
association that is not fit.  `none` for a pointer that refers to no
association or a write outside `s.m`. -/
def chime_loop (s : S) (c : C) (assoc : List (Option P)) :
    List Nat → List M → Nat → Option (List M × Nat)
  | [], m, n => some (m, n)
  | i :: rest, m, n =>
    match assoc.getD i none with
    | none => none
    | some p =>
      if fit s c p then
        (arrSet m n { p := some i, type := 1, edge := p.offset + root_dist c p }).bind fun m1 =>
        (arrSet m1 (n + 1) { p := some i, type := 0, edge := p.offset }).bind fun m2 =>
        (arrSet m2 (n + 2) { p := some i, type := -1, edge := p.offset - root_dist c p }).bind
          fun m3 => chime_loop s c assoc rest m3 (n + 3)
      else some (m, n)

/-- One scan of the chime list in `clock_select()`, over the entries in the
order the scan visits them: `chime` changes by `sign * type` (`sign` is -1 in
the scan for the lower endpoint, +1 in the scan for the upper one); the result
is the count `found` and the edge at which the scan broke off, if it did. -/
def scan (n : Int) (sign : Int) : List M → Int → Int → Int × Option Dbl
  | [], _, found => (found, none)
  | e :: rest, chime, found =>
    if chime + sign * e.type ≥ n - found then (found, some e.edge)
    else scan n sign rest (chime + sign * e.type) (if e.type = 0 then found + 1 else found)

/-- One pass of the loop over `allow` in `clock_select()` on `(low, high)` and
the flag that the loop was left by `break`. -/
def isect_step (ms : List M) (n : Int) (st : Dbl × Dbl × Bool) (allow : Nat) :
    Dbl × Dbl × Bool :=
  if st.2.2 then st
  else
    let lo := scan n (-1) ms 0 0
    let low := lo.2.getD st.1
    let hi := scan n 1 ms.reverse 0 lo.1
    let high := hi.2.getD st.2.1
    if hi.1 > (allow : Int) then (low, high, false)
    else if Dbl.gt high low then (low, high, true)
    else (low, high, false)

/-- The intersection loop of `clock_select()`,
`for (allow = 0; 2 * allow < n; allow++)`, on the first `n` chime entries:
the final `(low, high)`. -/
def intersection (ms : List M) (n : Nat) : Dbl × Dbl :=
  let r := (List.range ((n + 1) / 2)).foldl (isect_step ms (n : Int))
    (Dbl.fin 2000000000, Dbl.fin (-2000000000), false)
  (r.1, r.2.1)

/-- The loop of `clock_select()` that builds the survivor list, over the first
`n` chime entries, with the array `s.v` and the count `s.n`.  `none` for a
null or dangling pointer or a write outside `s.v`. -/
def survivor_loop (c : C) (assoc : List (Option P)) (low high : Dbl) (n : Nat) :
    List M → List V → Int → Option (List V × Int)
  | [], v, sn => some (v, sn)
  | e :: rest, v, sn =>
    if Dbl.lt e.edge low || Dbl.gt e.edge high then survivor_loop c assoc low high n rest v sn
    else
      match e.p.bind fun i => assoc.getD i none with
      | none => none
      | some p =>
        (arrSet v n { p := e.p, metric := Dbl.ofInt (MAXDIST * p.stratum) + root_dist c p }).bind
          fun v1 => survivor_loop c assoc low high n rest v1 (sn + 1)

/-- The association the survivor entry `s.v[k]` points to. -/
def survivor (assoc : List (Option P)) (v : List V) (k : Nat) : Option P :=
  (arrGet v k).bind fun e => e.p.bind fun i => assoc.getD i none

/-- The inner loop of the cluster loop, `for (j = 0; j < n; j++)`:
`dtemp += SQUARE(p->offset - q->offset)` with `q = s.v[j].p`. -/
def sel_jitter_sum (assoc : List (Option P)) (v : List V) (p : P) :
    List Nat → Dbl → Option Dbl
  | [], dtemp => some dtemp
  | j :: rest, dtemp =>
    match survivor assoc v j with
    | none => none
    | some q => sel_jitter_sum assoc v p rest (dtemp + SQUARE_diff p.offset q.offset)

/-- The loop `for (i = 0; i < s.n; i++)` of the cluster loop on `(max, min)`.
The pointer `qmax` it assigns is never read. -/
def cluster_scan (env : Env) (assoc : List (Option P)) (v : List V) (n : Nat) :
    List Nat → Dbl → Dbl → Option (Dbl × Dbl)
  | [], mx, mn => some (mx, mn)
  | i :: rest, mx, mn =>
    match survivor assoc v i with
    | none => none
    | some p =>
      match sel_jitter_sum assoc v p (List.range n) (Dbl.fin 0) with
      | none => none
      | some dtemp =>
        cluster_scan env assoc v n rest
          (if Dbl.gt (Dbl.sqrt env.sq dtemp) mx then Dbl.sqrt env.sq dtemp else mx)
          (if Dbl.lt p.jitter mn then p.jitter else mn)

/-- The cluster loop `while (1)` of `clock_select()`, from the survivor count
`s.n` to the count it leaves: a round breaks off when `max < min || n <= NMIN`
and otherwise does `s.n--`.  With `s.n = 0` the inner loops do not run and the
round breaks off.  `n` is the number of chime entries. -/
def cluster_loop (env : Env) (assoc : List (Option P)) (v : List V) (n : Nat) :
    Nat → Option Nat
  | 0 => some 0
  | k + 1 =>
    match cluster_scan env assoc v n (List.range (k + 1)) (Dbl.fin (-2000000000))
        (Dbl.fin 2000000000) with
    | none => none
    | some (mx, mn) =>
      if Dbl.lt mx mn || (n : Int) ≤ NMIN then some (k + 1)
      else cluster_loop env assoc v n k

/-- The loop of `clock_combine()`, `for (i = 0; s.v[i].p != NULL; i++)`, on
`(y, z, w)`; the first argument counts the entries of `s.v` not yet visited.
`none` when the loop runs off the end of `s.v` or meets a dangling pointer. -/
def combine_loop (c : C) (assoc : List (Option P)) (v : List V) :
    Nat → Nat → Dbl × Dbl × Dbl → Option (Dbl × Dbl × Dbl)
  | 0, _, _ => none
  | k + 1, i, (y, z, w) =>
    match (v.getD i default).p with
    | none => some (y, z, w)
    | some j =>
      match assoc.getD j none, survivor assoc v 0 with
      | some p, some h =>
        combine_loop c assoc v k (i + 1)
          (y + Dbl.fin 1 / root_dist c p, z + p.offset / root_dist c p,
           w + SQUARE_diff p.offset h.offset / root_dist c p)
      | _, _ => none

/-- Function `clock_combine()` of peer.c. -/
def clock_combine (env : Env) (c : C) (assoc : List (Option P)) (s : S) : Option S :=
  (combine_loop c assoc s.v NMAX 0 (Dbl.fin 0, Dbl.fin 0, Dbl.fin 0)).map fun a =>
    { s with offset := a.2.1 / a.1, jitter := Dbl.sqrt env.sq (a.2.2 / a.1) }

/-! ## Clock discipline and clock update -/

/-- Function `rstclock(state, offset, t)` of peer.c:
`c.state = state; c.last = c.offset = offset; s.t = t;`.  `none` when the
double `t` has no `tstamp` value. -/
def rstclock (s : S) (c : C) (state : Int) (offset t : Dbl) : Option (S × C) :=
  (toTstamp t).map fun ts =>
    ({ s with t := ts }, { c with state := state, last := offset, offset := offset })

/-- Result of `local_clock()`: the return code, the records `s` and `c`
afterwards, and the arguments of the calls of `step_time()` it made. -/
structure ClockOut where
  rval : Int
  s : S
  c : C
  steps : List Dbl
  deriving DecidableEq, Inhabited

/-- The poll-adjust code that ends `local_clock()`, on `(c.count, s.poll)`. -/
def poll_adjust (s : S) (c : C) : S × C :=
  if Dbl.lt (Dbl.fabs c.offset) (Dbl.ofInt PGATE * c.jitter) then
    if c.count + s.poll > LIMIT then
      if s.poll < MAXPOLL then ({ s with poll := s.poll + 1 }, { c with count := 0 })
      else (s, { c with count := LIMIT })
    else (s, { c with count := c.count + s.poll })
  else
    if c.count - 2 * s.poll < -LIMIT then
      if s.poll > MINPOLL then ({ s with poll := s.poll - 1 }, { c with count := 0 })
      else (s, { c with count := -LIMIT })
    else (s, { c with count := c.count - 2 * s.poll })

/-- The end of `local_clock()`, from `freq += c.freq` on: the new frequency
and wander, then the poll adjustment. -/
def local_clock_tail (env : Env) (s : S) (c : C) (freq : Dbl) (rval : Int)
    (steps : List Dbl) : ClockOut :=
  let freq1 := freq + c.freq
  let c1 := { c with
    freq := dmax (dmin MAXFREQ freq1) (-MAXFREQ)
    wander := Dbl.sqrt env.sq
      (c.wander * c.wander + (freq1 * freq1 - c.wander * c.wander) / Dbl.ofInt AVG) }
  let a := poll_adjust s c1
  { rval := rval, s := a.1, c := a.2, steps := steps }

/-- Function `local_clock(p, offset)` of peer.c.  `state0` is the value the
local variable `state` holds when it is read without having been assigned.
`none` when `rstclock()` is handed a time that has no `tstamp` value. -/
def local_clock (env : Env) (s : S) (c : C) (p : P) (offset : Dbl) (state0 : Int) :
    Option ClockOut :=
  if Dbl.gt (Dbl.fabs offset) (Dbl.ofInt PANICT) then
    some { rval := PANIC, s := s, c := c, steps := [] }
  else
    let mu := p.t - Dbl.ofNat s.t
    if Dbl.gt (Dbl.fabs offset) STEPT then
      if c.state = SYNC then
        -- `state = SPIK; return (rval);` assigns the local variable
        some { rval := SLEW, s := s, c := c, steps := [] }
      else if (c.state = FREQ ∨ c.state = SPIK) ∧ Dbl.lt mu (Dbl.ofInt WATCH) = true then
        some { rval := IGNORE, s := s, c := c, steps := [] }
      else
        let freq := if c.state = FREQ then (offset - c.offset) / mu else Dbl.fin 0
        let c1 := { c with count := 0 }
        let s1 := { s with poll := MINPOLL }
        if state0 = NSET then
          (rstclock s1 c1 FREQ p.t (Dbl.fin 0)).map fun a =>
            { rval := STEP, s := a.1, c := a.2, steps := [offset] }
        else
          (rstclock s1 c1 SYNC p.t (Dbl.fin 0)).map fun a =>
            local_clock_tail env a.1 a.2 freq STEP [offset]
    else
      let etemp := c.jitter * c.jitter
      let d := dmax (Dbl.fabs (offset - c.last)) (LOG2D s.precision)
      let c1 := { c with
        jitter := Dbl.sqrt env.sq (etemp + (d * d - etemp) / Dbl.ofInt AVG) }
      if c.state = NSET then
        (rstclock s c1 FREQ p.t offset).map fun a =>
          { rval := IGNORE, s := a.1, c := a.2, steps := [] }
      else if c.state = FSET then
        (rstclock s c1 SYNC p.t offset).map fun a =>
          local_clock_tail env a.1 a.2 (Dbl.fin 0) SLEW []
      else if c.state = FREQ then
        if tsub c.t s.t < WATCH.toNat then some { rval := IGNORE, s := s, c := c1, steps := [] }
        else some (local_clock_tail env s c1 ((offset - c.offset) / mu) SLEW [])
      else
        let freq0 :=
          if Dbl.gt (LOG2D s.poll) (Dbl.ofInt (ALLAN / 2)) then
            Dbl.fin 0 + (offset - c.offset) /
              (dmax mu (Dbl.ofInt ALLAN) *
                (if Dbl.lt (Dbl.ofInt (FLL - s.poll)) (Dbl.ofInt AVG) then Dbl.ofInt AVG
                 else Dbl.ofInt (FLL - s.poll)))
          else Dbl.fin 0
        let etemp2 := dmin mu (LOG2D s.poll)
        let dtemp2 := Dbl.ofInt (4 * PLL) * LOG2D s.poll
        let freq := freq0 + offset * etemp2 / (dtemp2 * dtemp2)
        (rstclock s c1 SYNC p.t offset).map fun a =>
          local_clock_tail env a.1 a.2 freq SLEW []

/-- Result of `clock_update()` and of `clock_select()`: the state afterwards,
the arguments of the calls of `step_time()`, and whether `exit(0)` was
called. -/
structure SelOut where
  st : State
  steps : List Dbl
  exited : Bool
  deriving DecidableEq, Inhabited

/-- The loop `while (/* all associations */ 0) clear(p, X_STEP);` of
`clock_update()`, over the association memory. -/
def clear_all (env : Env) (st : State) (kiss : Int) : State :=
  (List.range st.assoc.length).foldl (fun a i => (clear env a i kiss).getD a) st

/-- Function `clock_update(p)` of peer.c, for the association at pointer `i`.
`none` for a pointer that refers to no association and where
`clock_combine()` or `local_clock()` is undefined. -/
def clock_update (env : Env) (st : State) (i : Nat) (state0 : Int) : Option SelOut :=
  match deref st i with
  | none => none
  | some p =>
    if Dbl.ge (Dbl.ofNat st.s.t) p.t then some { st := st, steps := [], exited := false }
    else
      match toTstamp p.t with
      | none => none
      | some ts =>
        match clock_combine env st.c st.assoc { st.s with t := ts } with
        | none => none
        | some s2 =>
          match local_clock env s2 st.c p s2.offset state0 with
          | none => none
          | some o =>
            if o.rval = PANIC then
              some { st := { st with s := o.s, c := o.c }, steps := o.steps, exited := true }
            else if o.rval = STEP then
              let st1 := clear_all env { st with s := o.s, c := o.c } X_STEP
              some { st := { st1 with s := { st1.s with stratum := MAXSTRAT, poll := MINPOLL } }
                     steps := o.steps
                     exited := false }
            else if o.rval = SLEW then
              let dtemp := Dbl.sqrt env.sq (p.jitter * p.jitter + o.s.jitter * o.s.jitter) +
                dmax (p.disp + PHI * (Dbl.ofNat o.c.t - p.t) + Dbl.fabs p.offset) MINDISP
              some { st := { st with
                       s := { o.s with
                         leap := p.leap
                         stratum := p.stratum + 1
                         refid := p.refid
                         reftime := p.reftime
                         rootdelay := p.rootdelay + p.delay
                         rootdisp := p.rootdisp + dtemp }
                       c := o.c }
                     steps := o.steps
                     exited := false }
            else some { st := { st with s := o.s, c := o.c }, steps := o.steps, exited := false }

/-! ## Clock selection -/

/-- The state of `clock_select()` once the survivor list is built: the record
`s`, the number `n` of chime entries and the endpoints `low` and `high`. -/
structure Survivors where
  s : S
  n : Nat
  low : Dbl
  high : Dbl
  deriving DecidableEq, Inhabited

/-- The first part of `clock_select()`, up to the survivor list.  `ps` lists
the pointers the first loop takes in turn. -/
def clock_select_survivors (st : State) (ps : List Nat) : Option Survivors :=
  let s1 := { st.s with p := none }
  match chime_loop s1 st.c st.assoc ps s1.m 0 with
  | none => none
  | some (m, n) =>
    let lh := intersection (m.take n) n
    match survivor_loop st.c st.assoc lh.1 lh.2 n (m.take n) s1.v 0 with
    | none => none
    | some (v, sn) => some { s := { s1 with m := m, v := v, n := sn }, n := n, low := lh.1, high := lh.2 }

/-- The choice of the system peer that ends `clock_select()`:
`if (osys->stratum == s.v[0].p->stratum) s.p = osys; else s.p = s.v[0].p;`.
`none` when `osys` or `s.v[0].p` is null or dangling. -/
def system_peer (assoc : List (Option P)) (s : S) (osys : Option Nat) : Option (Option Nat) :=
  match osys.bind fun i => assoc.getD i none, survivor assoc s.v 0 with
  | some po, some ph => some (if po.stratum = ph.stratum then osys else (s.v.getD 0 default).p)
  | _, _ => none

/-- Function `clock_select()` of peer.c.  `ps` lists the pointers the first
loop takes in turn and `state0` is the indeterminate value of the local
`state` of `local_clock()`. -/
def clock_select (env : Env) (st : State) (ps : List Nat) (state0 : Int) : Option SelOut :=
  match clock_select_survivors st ps with
  | none => none
  | some a =>
    if a.s.n < NSANE then some { st := { st with s := a.s }, steps := [], exited := false }
    else
      match cluster_loop env st.assoc a.s.v a.n a.s.n.toNat with
      | none => none
      | some k =>
        match system_peer st.assoc a.s st.s.p with
        | none => none
        | some sp =>
          match sp with
          | none => none
          | some i => clock_update env { st with s := { a.s with n := (k : Int), p := sp } } i state0

/-! ## Poll process and adjust loop -/

def MINCLOCK : Int := 3
def TTLMAX : Int := 8
def BEACON : Int := 15
def UNREACH : Int := 12
def BCOUNT : Int := 8

/-- Function `peer_xmit(p)` of peer.c, for the association at pointer `i`:
the state afterwards and whether a packet was handed to `xmit_packet()`.
`now` is the value `get_time()` returns.  With a key identifier that is not
zero and an invalid key the association is reset by `clear(p, X_NKEY)` and
nothing is sent. -/
def peer_xmit (env : Env) (st : State) (i : Nat) (now : Nat) : Option (State × Bool) :=
  match deref st i with
  | none => none
  | some p =>
    let st1 := { st with assoc := st.assoc.set i (some { p with xmt := now }) }
    if p.keyid ≠ 0 ∧ env.nokey p.keyid = true then
      (clear env st1 i X_NKEY).map fun a => (a, false)
    else some (st1, true)

/-- Result of `poll(p)`. -/
structure PollOut where
  /-- The state when `poll()` returns. -/
  st : State
  /-- Whether a packet was handed to `xmit_packet()`. -/
  xmit : Bool
  /-- The sample handed to `clock_filter()`, if the call is made. -/
  sample : Option Sample
  /-- Whether `clock_filter()` went on to `clock_select()`. -/
  select : Bool
  deriving DecidableEq, Inhabited

/-- The end of each path of `poll()`: the call of `peer_xmit(p)`, if it is
made, the statements `post` that follow it, and `poll_update(p, hpoll)`.
`none` when the association is used after `peer_xmit()` has freed it. -/
def poll_finish (env : Env) (st : State) (i : Nat) (now : Nat) (send : Bool) (post : P → P)
    (hpoll : Int) (sample : Option Sample) (select : Bool) : Option PollOut :=
  (if send then peer_xmit env st i now else some (st, false)).bind fun a =>
    (deref a.1 i).map fun p =>
      { st := { a.1 with assoc := a.1.assoc.set i (some (poll_update a.1.c (post p) hpoll)) }
        xmit := a.2
        sample := sample
        select := select }

/-- The statements of the non-burst path of `poll()` that follow the call of
`clock_filter()`: the association and the local `hpoll`. -/
def poll_reach (s : S) (c : C) (p : P) (hpoll : Int) : P × Int :=
  if p.reach = 0 then
    if p.flags &&& P_IBURST ≠ 0 ∧ p.unreach = 0 then
      ({ p with burst := BCOUNT, unreach := p.unreach + 1 }, hpoll)
    else if p.unreach < UNREACH then ({ p with unreach := p.unreach + 1 + 1 }, hpoll)
    else ({ p with unreach := p.unreach + 1 }, hpoll + 1)
  else
    let p1 := { p with unreach := 0 }
    (if p1.flags &&& P_BURST ≠ 0 ∧ fit s c p1 = true then { p1 with burst := BCOUNT } else p1,
     s.poll)

/-- Function `poll(p)` of peer.c, for the association at pointer `i`.  The
member `reach` is an `int`; `p->reach << 1` is the doubled value as a 32-bit
`int` holds it.  The selection `clock_filter()` may start on the dead sample
is reported, not run: when `select` is set, the state given is the one
`poll()` would leave if `clock_select()` changed nothing. -/
def poll (env : Env) (st : State) (i : Nat) (now : Nat) : Option PollOut :=
  match deref st i with
  | none => none
  | some p =>
    let put := fun (q : P) => { st with assoc := st.assoc.set i (some q) }
    if p.hmode = M_BCST then
      poll_finish env (put { p with outdate := toI32 (st.c.t : Int) }) i now (st.s.p != none) id
        p.hpoll none false
    else if p.hmode = M_CLNT ∧ p.flags &&& P_MANY ≠ 0 then
      let p1 := { p with outdate := toI32 (st.c.t : Int) }
      if p1.unreach > BEACON then
        poll_finish env (put { p1 with unreach := 0, ttl := 1 }) i now true
          (fun q => { q with unreach := q.unreach + 1 }) p.hpoll none false
      else if st.s.n < MINCLOCK then
        poll_finish env (put (if p1.ttl < TTLMAX then { p1 with ttl := p1.ttl + 1 } else p1)) i now
          true (fun q => { q with unreach := q.unreach + 1 }) p.hpoll none false
      else
        poll_finish env (put p1) i now false (fun q => { q with unreach := q.unreach + 1 })
          p.hpoll none false
    else if p.burst = 0 then
      let p1 := { p with outdate := toI32 (st.c.t : Int), reach := toI32 (p.reach * 2) }
      let dead := iand7 p1.reach = 0
      let o := if dead then clock_filter env st.s st.c p1 (Dbl.fin 0) (Dbl.fin 0) (Dbl.ofInt MAXDISP)
        else (p1, false)
      let a := poll_reach st.s st.c o.1 p.hpoll
      poll_finish env (put a.1) i now (p.hmode != M_BCLN) id a.2
        (if dead then some { offset := Dbl.fin 0, delay := Dbl.fin 0, disp := Dbl.ofInt MAXDISP }
         else none)
        o.2
    else
      poll_finish env (put { p with burst := p.burst - 1 }) i now (p.hmode != M_BCLN) id
        p.hpoll none false

/-- Result of `clock_adjust()`: the state afterwards, the argument of the call
of `adjust_time()`, and for each call of `poll()` the pointer and what the call
reported. -/
structure AdjustOut where
  st : State
  adj : Dbl
  polls : List (Nat × Bool × Option Sample × Bool)
  deriving DecidableEq, Inhabited

/-- The statements of `clock_adjust()` before the peer timer: the records `s`
and `c` afterwards and the argument of `adjust_time()`. -/
def adjust_tick (s : S) (c : C) : S × C × Dbl :=
  let dtemp := c.offset / (Dbl.ofInt PLL * dmin (LOG2D s.poll) (Dbl.ofInt ALLAN))
  ({ s with rootdisp := s.rootdisp + PHI },
   { c with t := (c.t + 1) % 18446744073709551616, offset := c.offset - dtemp },
   c.freq + dtemp)

/-- The peer timer of `clock_adjust()`, over the pointers given:
`if (c.t >= p->nextdate) poll(p);` for each live association.  `now k` is the
time `get_time()` returns in the poll of the association at pointer `k`. -/
def poll_due (env : Env) (now : Nat → Nat) :
    List Nat → State → List (Nat × Bool × Option Sample × Bool) →
      Option (State × List (Nat × Bool × Option Sample × Bool))
  | [], st, acc => some (st, acc)
  | i :: rest, st, acc =>
    match deref st i with
    | none => poll_due env now rest st acc
    | some p =>
      if st.c.t ≥ toU64 p.nextdate then
        match poll env st i (now i) with
        | none => none
        | some o => poll_due env now rest o.st (acc ++ [(i, o.xmit, o.sample, o.select)])
      else poll_due env now rest st acc

/-- Function `clock_adjust()` of peer.c. -/
def clock_adjust (env : Env) (st : State) (now : Nat → Nat) : Option AdjustOut :=
  let a := adjust_tick st.s st.c
  (poll_due env now (List.range st.assoc.length) { st with s := a.1, c := a.2.1 } []).map
    fun r => { st := r.1, adj := a.2.2, polls := r.2 }

/-! ## The cluster loop, round by round -/

/-- One round of the cluster loop `while (1)` of `clock_select()`, entered with
the survivor count `sn` (the `int` `s.n`) and `n` chime entries: `none` when a
survivor pointer it reads is null or dangling, `some none` when the round
leaves the loop by `break`, and `some (some k)` when it ends with `s.n--`,
which leaves `k`. -/
def cluster_round (env : Env) (assoc : List (Option P)) (v : List V) (n : Nat) (sn : Int) :
    Option (Option Int) :=
  match cluster_scan env assoc v n (List.range sn.toNat) (Dbl.fin (-2000000000))
      (Dbl.fin 2000000000) with
  | none => none
  | some (mx, mn) =>
    if Dbl.lt mx mn || (n : Int) ≤ NMIN then some none else some (some (sn - 1))

/-- The cluster loop of `clock_select()` run for at most `fuel` rounds from the
survivor count `sn`: `none` when a round is undefined, `some none` when the
rounds are used up, `some (some k)` when the loop ends with `s.n` = `k`. -/
def cluster_while (env : Env) (assoc : List (Option P)) (v : List V) (n : Nat) :
    Nat → Int → Option (Option Int)
  | 0, _ => some none
  | fuel + 1, sn =>
    match cluster_round env assoc v n sn with
    | none => none
    | some none => some (some sn)
    | some (some k) => cluster_while env assoc v n fuel k

/-! ## The specification's wording, for comparison -/

/-- The value of a 64-bit pattern read as a signed integer. -/
def signed64 (n : Nat) : Int :=
  if n < 9223372036854775808 then (n : Int) else (n : Int) - 18446744073709551616

/-- The offset as the specification words it: `((rec - org) + (dst - xmt)) / 2`
with each difference the signed 64-bit fixed-point difference divided by 2^32. -/
def spec_offset (r : R) : ℚ :=
  ((signed64 (tsub r.rcv r.org) : ℚ) / 4294967296 +
    (signed64 (tsub r.dst r.xmt) : ℚ) / 4294967296) / 2

/-- The system offset as the specification words it: the sum of
`p.offset / root_dist(p)` over the survivors `s.v[0..s.n-1]`, divided by the
sum of `1 / root_dist(p)` over the same survivors. -/
def spec_combine_offset (c : C) (assoc : List (Option P)) (s : S) : Dbl :=
  let ps := (List.range s.n.toNat).filterMap fun k => survivor assoc s.v k
  (ps.foldl (fun z p => z + p.offset / root_dist c p) (Dbl.fin 0)) /
    (ps.foldl (fun y p => y + Dbl.fin 1 / root_dist c p) (Dbl.fin 0))

/-- A run of `clock_update()` on a series of samples of the association at
pointer `i`: before each call the update time `p.t` of the association is set
to the next sample time.  The result is the final state and the arguments of
all calls of `step_time()`. -/
def feed (env : Env) (i : Nat) (state0 : Int) :
    List Nat → State → List Dbl → Option (State × List Dbl)
  | [], st, steps => some (st, steps)
  | t :: rest, st, steps =>
    match deref st i with
    | none => none
    | some p =>
      match clock_update env
          { st with assoc := st.assoc.set i (some { p with t := Dbl.ofNat t }) } i state0 with
      | none => none
      | some o => feed env i state0 rest o.st (steps ++ o.steps)

/-- A run of `local_clock()` on a series of samples `(t, offset)`: before each
call the process time `c.t` and the update time `p.t` of the association are
set to `t`.  The result is the final records and the discipline state after
each call. -/
def discipline (env : Env) (p : P) (state0 : Int) :
    List (Nat × Dbl) → S → C → List Int → Option (S × C × List Int)
  | [], s, c, acc => some (s, c, acc)
  | (t, x) :: rest, s, c, acc =>
    match local_clock env s { c with t := t } { p with t := Dbl.ofNat t } x state0 with
    | none => none
    | some o => discipline env p state0 rest o.s o.c (acc ++ [o.c.state])

/-- What the poll-adjust code guarantees for the new `s.poll` and `c.count`,
given the old `s.poll`: both are in their bounds, the poll exponent has moved
by at most one, and the counter is zero when it moved. -/
def PollAdjusted (poll poll1 count1 : Int) : Prop :=
  MINPOLL ≤ poll1 ∧ poll1 ≤ MAXPOLL ∧ -LIMIT ≤ count1 ∧ count1 ≤ LIMIT ∧
    (poll1 = poll ∨ ((poll1 = poll + 1 ∨ poll1 = poll - 1) ∧ count1 = 0))

/-- The clamp of the specification: `x` limited to the interval [lo, hi]. -/
def spec_clamp (x lo hi : Int) : Int := max lo (min x hi)

/-- The dispersion sum as the specification words it: the sum over the eight
stages of `f[i].disp / 2^(i+1)`. -/
def spec_filter_disp (f : List F) : Dbl :=
  (List.range NSTAGE).foldl
    (fun acc i => acc + (f.getD i default).disp / Dbl.ofNat (2 ^ (i + 1))) (Dbl.fin 0)

/-- The selection jitter of survivor `i` as the specification words it: the
root of the sum, over the `sn` survivors `j`, of the squares
`(offset_i - offset_j)^2`. -/
def spec_sjitter (env : Env) (assoc : List (Option P)) (v : List V) (sn : Nat) (i : Nat) :
    Option Dbl :=
  (survivor assoc v i).bind fun p =>
    ((List.range sn).foldl
      (fun acc j => acc.bind fun a => (survivor assoc v j).map fun q =>
        a + (p.offset - q.offset) * (p.offset - q.offset))
      (some (Dbl.fin 0))).map (Dbl.sqrt env.sq)

/-- The system jitter as the specification words it: the root of the sum of
`(p.offset - head.offset)^2 / root_dist(p)` over the survivors
`s.v[0..s.n-1]`, divided by the sum of `1 / root_dist(p)`. -/
def spec_combine_jitter (env : Env) (c : C) (assoc : List (Option P)) (s : S) : Dbl :=
  let ps := (List.range s.n.toNat).filterMap fun k => survivor assoc s.v k
  let h := (survivor assoc s.v 0).getD default
  Dbl.sqrt env.sq
    ((ps.foldl (fun w p => w + (p.offset - h.offset) * (p.offset - h.offset) / root_dist c p)
        (Dbl.fin 0)) /
      (ps.foldl (fun y p => y + Dbl.fin 1 / root_dist c p) (Dbl.fin 0)))

/-! ## Fixtures for concrete evaluation -/

/-- The integer square root of `n`, found bit by bit from bit `k - 1` down. -/
def isqrt_bits (n : Nat) : Nat → Nat → Nat
  | 0, r => r
  | k + 1, r =>
    if (r + 2 ^ k) * (r + 2 ^ k) ≤ n then isqrt_bits n k (r + 2 ^ k) else isqrt_bits n k r

/-- A stand-in for the values of `sqrt`: the root to 32 binary places, for
arguments below 2^64. -/
def sq32 (q : ℚ) : ℚ :=
  (isqrt_bits (Int.toNat (Int.floor (q * 18446744073709551616))) 64 0 : ℚ) / 4294967296

/-- An association with every member zero and eight empty filter stages. -/
def p0 : P :=
  { srcaddr := 0, dstaddr := 0, version := 4, hmode := 0, keyid := 0, flags := 0,
    leap := 0, pmode := 0, stratum := 0, ppoll := 0, rootdelay := Dbl.fin 0,
    rootdisp := Dbl.fin 0, refid := 0, reftime := 0, org := 0, rcv := 0, xmt := 0,
    t := Dbl.fin 0, f := List.replicate 8 { t := 0, offset := Dbl.fin 0, delay := Dbl.fin 0, disp := Dbl.fin 0 },
    offset := Dbl.fin 0, delay := Dbl.fin 0, disp := Dbl.fin 0, jitter := Dbl.fin 0,
    hpoll := 6, burst := 0, reach := 0, ttl := 0, unreach := 0, outdate := 0, nextdate := 0 }

/-- A packet with every member zero. -/
def r0 : R :=
  { srcaddr := 0, dstaddr := 0, version := 4, leap := 0, mode := 0, stratum := 0, poll := 0,
    precision := 0, rootdelay := 0, rootdisp := 0, refid := 0, reftime := 0, org := 0,
    rcv := 0, xmt := 0, keyid := 0, mac := 0, dst := 0 }

/-- The system record `main()` sets up: unsynchronised, precision -18. -/
def s0 : S :=
  { t := 0, leap := NOSYNC, stratum := MAXSTRAT, poll := MINPOLL, precision := -18,
    rootdelay := Dbl.fin 0, rootdisp := Dbl.fin 0, refid := 0, reftime := 0, m := [], v := [],
    p := none, offset := Dbl.fin 0, jitter := Dbl.fin 0, flags := 0, n := 0 }

/-- A clock record at process time 0. -/
def c0 : C :=
  { t := 0, state := 0, offset := Dbl.fin 0, last := Dbl.fin 0, count := 0,
    freq := Dbl.fin 0, jitter := Dbl.fin 0, wander := Dbl.fin 0 }

/-- An environment that grants access, sees no MAC and allocates zeroed memory. -/
def env0 : Env :=
  { access := fun _ => 1, has_mac := fun _ => 0, md5 := fun _ => 0, unicast := fun _ => true,
    fresh := p0, random := 0, sq := sq32, nokey := fun _ => false }

/-- An association in symmetric active mode whose last transmit timestamp is 5. -/
def pW : P := { p0 with hmode := 1, xmt := 5 }

/-- A state whose only association is `pW`. -/
def stW : State := { s := s0, c := c0, assoc := [some pW] }

/-- A mode-1 packet with a new transmit timestamp and an origin timestamp that
does not match. -/
def rW3 : R := { r0 with mode := 1, xmt := 7, org := 3, dst := 9 }

/-- A packet with stratum 17. -/
def r5 : R := { r0 with stratum := 17 }

/-- A stratum-1 packet with root delay 0 and root dispersion 16 units of
2^-16 s. -/
def r6 : R := { r0 with stratum := 1, rootdisp := 16, xmt := 1 }

/-- A stratum-1 packet with `org` = `xmt` = 2 s and `rec` = `dst` = 1 s. -/
def r7 : R :=
  { r0 with stratum := 1, org := 8589934592, rcv := 4294967296, xmt := 8589934592,
            dst := 4294967296 }

/-- The association `mobilize()` sets up in zeroed memory. -/
def pClr : P := clear_fields env0 s0 c0 p0 X_INIT

/-- A stratum-1 server packet with `org` = 1 s, `rec` = 2 s, `xmt` = 3 s,
`dst` = 4 s, reference ID 1. -/
def r10 : R :=
  { r0 with stratum := 1, precision := -18, refid := 1, org := 4294967296, rcv := 8589934592,
            xmt := 12884901888, dst := 17179869184 }

/-- The association `packet(pClr, r10)` hands to `clock_filter()`. -/
def q10 : P :=
  { poll_update c0 (packet_header pClr r10) (packet_header pClr r10).hpoll with
    reach := ior1 (poll_update c0 (packet_header pClr r10) (packet_header pClr r10).hpoll).reach }

/-- The association after `packet(pClr, r10)`: a fresh association after its
first valid packet. -/
def p10 : P := (packet env0 s0 c0 pClr r10).p

/-- A persistent association holding timestamps, a reach register and a burst
count. -/
def pK : P := { p0 with org := 3, rcv := 4, xmt := 5, reach := 255, burst := 2, ttl := 1,
                        offset := Dbl.fin 1, delay := Dbl.fin 1 }

/-- A state whose only association is `pK`, which is also the system peer. -/
def stK : State := { s := { s0 with p := some 0 }, c := c0, assoc := [some pK] }

/-- A fit association with the given offset and root distance 0.01 s. -/
def pS (o : ℚ) : P :=
  { p0 with stratum := 1, refid := 1, reach := 1, disp := Dbl.fin (5 / 1000), offset := Dbl.fin o }

/-- The system record with its two arrays of `NMAX` zero entries. -/
def sSel : S := { s0 with m := List.replicate 50 default, v := List.replicate 50 default }

/-- Four peers: offsets 0.001, 0.002, 0.0015 and 1.000. -/
def st13 : State :=
  { s := sSel, c := c0,
    assoc := [some (pS (1 / 1000)), some (pS (2 / 1000)), some (pS (15 / 10000)), some (pS 1)] }

/-- A state whose only association is `p10`, the association a fresh one
becomes after its first valid packet. -/
def st14 : State := { s := sSel, c := c0, assoc := [some p10] }

/-- A former system peer that has become unreachable. -/
def pOld : P := { pS 0 with reach := 0 }

/-- A state with the associations `p10` and `pOld`, `pOld` being the system
peer, and with the first three survivor entries pointing to `p10`. -/
def st16 : State :=
  { s := { s0 with
      m := List.replicate 50 default
      v := List.replicate 3 { p := some 0, metric := Dbl.fin 0 } ++ List.replicate 47 default
      p := some 1 },
    c := c0,
    assoc := [some p10, some pOld] }

/-- A system record whose survivor array begins with pointers 0 and 1 and
whose survivor count is 1. -/
def s17 : S :=
  { s0 with
    m := List.replicate 50 default
    v := [{ p := some 0, metric := Dbl.fin 0 }, { p := some 1, metric := Dbl.fin 0 }] ++
      List.replicate 48 default
    n := 1 }

/-- Two associations with offsets 0 and 1 and root distance 0.01 s. -/
def assoc17 : List (Option P) := [some (pS 0), some (pS 1)]

/-- A clock record in state SYNC at process time 1200. -/
def cSync : C := { c0 with state := SYNC, t := 1200 }

/-- A state in discipline state SYNC whose only association, with offset
0.5 s, is the system peer and the only survivor. -/
def st20 : State :=
  { s := { s0 with
      m := List.replicate 50 default
      v := [{ p := some 0, metric := Dbl.fin 0 }] ++ List.replicate 49 default
      p := some 0
      n := 1 },
    c := cSync,
    assoc := [some (pS (1 / 2))] }

/-- The sample times of the scenario: 60, 120, ..., 1200. -/
def times20 : List Nat := (List.range 20).map fun j => 60 * (j + 1)

/-- Twenty samples of offset 1 ms at the times 60, 120, ..., 1200. -/
def samples21 : List (Nat × Dbl) := (List.range 20).map fun j => (60 * (j + 1), Dbl.fin (1 / 1000))

/-- A clock record in state FREQ at process time 1000, with offset 0 and
frequency 0. -/
def cFreq : C := { c0 with state := FREQ, t := 1000 }

/-- A system record with poll exponent 10. -/
def s23 : S := { s0 with poll := 10 }

/-- A clock record in state FSET. -/
def cFset : C := { c0 with state := FSET }

/-- A state in discipline state FREQ whose only association, with offset 0
and update time 60, is the system peer and the only survivor. -/
def st22 : State :=
  { s := { s0 with
      m := List.replicate 50 default
      v := [{ p := some 0, metric := Dbl.fin 0 }] ++ List.replicate 49 default
      p := some 0
      n := 1 },
    c := cFreq,
    assoc := [some { pS 0 with t := Dbl.fin 60 }] }

/-- A client association with reach register 0b11111111. -/
def pR : P := { p0 with hmode := M_CLNT, reach := 255 }

/-- A state whose only association is `pR`. -/
def stR : State := { s := s0, c := c0, assoc := [some pR] }

/-- A state without associations whose clock offset is 1 s. -/
def st24 : State := { s := s0, c := { c0 with offset := Dbl.fin 1 }, assoc := [] }

/-- A state whose clock offset is 1 s and whose only association is the
client `pR`, due for a poll. -/
def st24p : State := { s := s0, c := { c0 with offset := Dbl.fin 1 }, assoc := [some pR] }

/-- An association last polled at 2^31 - 65, with peer poll exponent 6. -/
def p26 : P := { p0 with outdate := 2147483583, ppoll := 6 }

/-- A clock record at process time 2^31 - 1, 64 s after the poll of `p26`. -/
def c26 : C := { c0 with t := 2147483647 }

/-- An association whose filter stage `k` holds time, offset, delay and
dispersion `k`, for `k` = 0..7. -/
def p27 : P :=
  { p0 with f := (List.range 8).map fun k =>
      { t := k, offset := Dbl.ofNat k, delay := Dbl.ofNat k, disp := Dbl.ofNat k } }

/-- A clock record at process time 10. -/
def c27 : C := { c0 with t := 10 }

/-- An association whose filter stages all hold offset 1 ms and delay 10 ms. -/
def p28 : P :=
  { p0 with
    f := List.replicate 8 (F.mk 0 (Dbl.fin (1 / 1000)) (Dbl.fin (1 / 100)) (Dbl.fin 0)) }

/-- An association whose filter stages all hold dispersion 1 s and whose peer
dispersion is 0. -/
def p29 : P :=
  { p0 with f := List.replicate 8 (F.mk 0 (Dbl.fin 0) (Dbl.fin 0) (Dbl.fin 1)) }

/-- An association with the given offset and jitter 2^-18 s. -/
def pJ (o : ℚ) : P := { pS o with jitter := Dbl.fin (1 / 262144) }

/-- Two associations with offsets 0 and 1. -/
def assoc30 : List (Option P) := [some (pJ 0), some (pJ 1)]

/-- A survivor array whose first six entries point to the associations
1, 0, 0, 0, 0, 0. -/
def v30 : List V :=
  [{ p := some 1, metric := Dbl.fin 0 }] ++ List.replicate 5 ({ p := some 0, metric := Dbl.fin 0 } : V) ++
    List.replicate 44 default

/-- A state with two fit associations of undefined root distance (0 and 1),
two associations with offsets 1 and 0 (2 and 3), the first six survivor
entries pointing to the associations 2, 3, 3, 3, 3, 3, and association 2 as
system peer. -/
def st30 : State :=
  { s := { s0 with
      m := List.replicate 50 default
      v := [{ p := some 2, metric := Dbl.fin 0 }] ++
        List.replicate 5 ({ p := some 3, metric := Dbl.fin 0 } : V) ++ List.replicate 44 default
      p := some 2 },
    c := c0,
    assoc := [some p10, some p10, some (pJ 1), some (pJ 0)] }

/-- Three associations: offset 1 and jitter 5, offset 0 and jitter 5, offset 0
and jitter 2^-18. -/
def assoc31 : List (Option P) :=
  [some { pS 1 with jitter := Dbl.fin 5 }, some { pS 0 with jitter := Dbl.fin 5 }, some (pJ 0)]

/-- A survivor array whose first six entries point to the associations
0, 1, 2, 1, 1, 1. -/
def v31 : List V :=
  [({ p := some 0, metric := Dbl.fin 0 } : V), { p := some 1, metric := Dbl.fin 0 },
   { p := some 2, metric := Dbl.fin 0 }] ++
    List.replicate 3 ({ p := some 1, metric := Dbl.fin 0 } : V) ++ List.replicate 44 default

/-- A system record with one survivor, association 0. -/
def s32 : S :=
  { s0 with
    m := List.replicate 50 default
    v := [({ p := some 0, metric := Dbl.fin 0 } : V)] ++ List.replicate 49 default
    n := 1 }

/-- An association at update time 60. -/
def p33 : P := { p0 with t := Dbl.fin 60 }

/-- A clock record in state NSET at process time 60. -/
def c33 : C := { c0 with t := 60 }

/-- Seventeen fit associations with offset 0. -/
def st35 : State := { s := sSel, c := c0, assoc := List.replicate 17 (some (pS 0)) }

/-- The state `st16` without a system peer. -/
def st37 : State := { st16 with s := { st16.s with p := none } }

/-- A state in discipline state FREQ whose only association, with offset 1 ms
and update time 60, is the system peer and the only survivor. -/
def st38 : State :=
  { st22 with assoc := [some { pS (1 / 1000) with t := Dbl.fin 60 }] }

/-- An association with offset 1 and dispersion +inf. -/
def p40 : P := { pS 1 with disp := Dbl.pinf }

/-! ## Lemmas on doubles -/

namespace Dbl

@[simp] theorem fin_add (a b : ℚ) : fin a + fin b = fin (a + b) := rfl

@[simp] theorem fin_sub (a b : ℚ) : fin a - fin b = fin (a - b) := by
  show add (fin a) (neg (fin b)) = _
  simp [add, neg, sub_eq_add_neg]

@[simp] theorem fin_mul (a b : ℚ) : fin a * fin b = fin (a * b) := rfl

theorem fin_div (a b : ℚ) (h : b ≠ 0) : fin a / fin b = fin (a / b) := by
  show div (fin a) (fin b) = _
  simp [div, h]

@[simp] theorem lt_fin (a b : ℚ) : lt (fin a) (fin b) = decide (a < b) := rfl

@[simp] theorem le_fin (a b : ℚ) : le (fin a) (fin b) = decide (a ≤ b) := rfl

@[simp] theorem lt_nan_left (b : Dbl) : lt nan b = false := by cases b <;> rfl

@[simp] theorem lt_nan_right (a : Dbl) : lt a nan = false := by cases a <;> rfl

@[simp] theorem le_nan_left (b : Dbl) : le nan b = false := by cases b <;> rfl

@[simp] theorem le_nan_right (a : Dbl) : le a nan = false := by cases a <;> rfl

@[simp] theorem add_nan (a : Dbl) : a + nan = nan := by
  show add a nan = nan
  cases a <;> rfl

@[simp] theorem nan_add (a : Dbl) : nan + a = nan := by
  show add nan a = nan
  cases a <;> rfl

end Dbl

/-! ## Dispatch and authentication -/

/-- Inside a row the code reads the column of the next packet mode: for
`m` in 0..4, `table[h][m]` is the matrix entry of host mode `h` and packet
mode `m + 1`. -/
theorem tableRead_shift (h m : Int) (hh : 0 ≤ h ∧ h ≤ 6) (hm : 0 ≤ m ∧ m ≤ 4) :
    tableRead h m = specMatrix h (m + 1) := by
  obtain ⟨h0, h6⟩ := hh
  obtain ⟨m0, m4⟩ := hm
  interval_cases h <;> interval_cases m <;> decide

/-- C1 (evaluation of the code at the failing inputs): with host mode 0 and a
client packet (mode 3) `receive()` dispatches on `table[0][3]`, which is MANY,
where the matrix has FXMIT; with host mode client (3) and a server packet
(mode 4) it dispatches on `table[3][4]`, which is DSCRD, where the matrix has
PROC. -/
theorem receive_dispatch_reads_next_column :
    tableRead 0 3 = some MANY ∧ specMatrix 0 3 = some FXMIT ∧
    tableRead 3 4 = some DSCRD ∧ specMatrix 3 4 = some PROC := by
  decide

/-- C4: `AUTH(mask, result)` is true exactly when the result is A_OK, or the
mask is 0 and the result is A_NONE; A_ERROR and A_CRYPTO are rejected under
every mask. -/
theorem AUTH_accepts_iff (mask result : Int) :
    (AUTH mask result = true ↔ result = A_OK ∨ (mask = 0 ∧ result = A_NONE)) ∧
    AUTH mask A_ERROR = false ∧ AUTH mask A_CRYPTO = false := by
  refine ⟨?_, ?_, ?_⟩
  · by_cases hm : mask = 0 <;> simp [AUTH, hm]
  · by_cases hm : mask = 0 <;> simp [AUTH, hm, A_ERROR, A_OK, A_NONE]
  · by_cases hm : mask = 0 <;> simp [AUTH, hm, A_CRYPTO, A_OK, A_NONE]

/-! ## Receive: replayed and unsynchronised packets -/

/-- A pointer `find_assoc()` returns refers to an association with the source
address and the mode of the packet. -/
theorem findFrom_some (r : R) : ∀ (l : List (Option P)) (k i : Nat),
    findFrom r l k = some i →
    k ≤ i ∧ ∃ p, l.getD (i - k) none = some p ∧ r.srcaddr = p.srcaddr ∧ r.mode = p.hmode := by
  intro l
  induction l with
  | nil => intro k i h; simp [findFrom] at h
  | cons e rest ih =>
    intro k i h
    cases e with
    | none =>
      simp only [findFrom] at h
      obtain ⟨hk, p, hp, h1, h2⟩ := ih (k + 1) i h
      refine ⟨by omega, p, ?_, h1, h2⟩
      have : i - k = (i - (k + 1)) + 1 := by omega
      rw [this]
      simpa using hp
    | some q =>
      simp only [findFrom] at h
      split at h
      · rename_i hq
        cases h
        exact ⟨le_refl _, q, by simp, hq.1, hq.2⟩
      · obtain ⟨hk, p, hp, h1, h2⟩ := ih (k + 1) i h
        refine ⟨by omega, p, ?_, h1, h2⟩
        have : i - k = (i - (k + 1)) + 1 := by omega
        rw [this]
        simpa using hp

/-- The association a packet is matched to has the packet mode as host mode. -/
theorem find_assoc_hmode (st : State) (r : R) (i : Nat) (p : P)
    (hfind : find_assoc st r = some i) (hp : deref st i = some p) : p.hmode = r.mode := by
  obtain ⟨_, q, hq, _, h2⟩ := findFrom_some r st.assoc 0 i hfind
  simp only [Nat.sub_zero] at hq
  unfold deref at hp
  rw [hq] at hp
  cases hp
  exact h2.symm

/-- The timestamp checks return at once on a zero or repeated transmit
timestamp. -/
theorem receive_checks_replay (env : Env) (st : State) (r : R) (i : Nat) (p : P) (auth : Int)
    (hp : deref st i = some p) (hx : r.xmt = 0 ∨ r.xmt = p.xmt) :
    receive_checks env st i r auth = some (quiet st) := by
  unfold receive_checks
  rw [hp]
  rcases hx with h | h
  · simp [h]
  · simp only [h]
    split <;> simp

/-- C3: a packet dispatched as PROC for its association `p`, not in broadcast
mode, with `r.xmt` neither 0 nor `p.xmt`, and with `r.org = 0` or
`r.org ≠ p.xmt`, makes `receive()` set `p.org = r.xmt` and `p.rec = r.dst`
and return: nothing else in the state changes, and neither `packet()` nor
`clock_filter()` is called. -/
theorem receive_unsynch (env : Env) (st : State) (r : R) (i : Nat) (p : P)
    (hacc : env.access r ≠ 0) (hver : r.version ≤ VERSION)
    (hfind : find_assoc st r = some i) (hp : deref st i = some p)
    (hproc : tableRead p.hmode r.mode = some PROC)
    (hmode : r.mode ≠ M_BCST)
    (hx0 : r.xmt ≠ 0) (hx1 : r.xmt ≠ p.xmt)
    (horg : r.org = 0 ∨ r.org ≠ p.xmt) :
    receive env st r =
      some (quiet { st with
        assoc := st.assoc.set i (some { p with org := r.xmt, rcv := r.dst }) }) := by
  have hv : ¬ r.version > VERSION := not_lt.mpr hver
  have hc : receive_checks env st i r (auth_code env r) =
      some (quiet { st with
        assoc := st.assoc.set i (some { p with org := r.xmt, rcv := r.dst }) }) := by
    unfold receive_checks
    rw [hp]
    rcases horg with h | h <;> simp [hx0, hx1, hmode, h]
  unfold receive
  simp [hacc, hv, hfind, hp, hproc, PROC, FXMIT, MANY, NEWPS, NEWBC, ERR, DSCRD]
  simpa using hc

/-- C3 (witness): a mode-1 packet with transmit timestamp 7 and origin
timestamp 3, for an association that last sent at 5. -/
theorem receive_unsynch_witness :
    receive env0 stW rW3 =
      some (quiet { stW with
        assoc := stW.assoc.set 0 (some { pW with org := rW3.xmt, rcv := rW3.dst }) }) :=
  receive_unsynch env0 stW rW3 0 pW (by decide) (by decide) (by decide) rfl (by decide)
    (by decide) (by decide) (by decide) (Or.inr (by decide))

/-! ## Packet: stratum, root-distance check, offset -/

/-- The poll update leaves the stratum and the peer mode alone. -/
theorem poll_update_frame (c : C) (p : P) (poll : Int) :
    (poll_update c p poll).stratum = p.stratum ∧ (poll_update c p poll).pmode = p.pmode := by
  simp only [poll_update]
  split_ifs <;> exact ⟨rfl, rfl⟩

/-- The clock filter writes the filter, `offset`, `delay`, `disp`, `jitter` and
`t` only; the jitter it stores is the clamped root of the accumulated sum. -/
theorem clock_filter_frame (env : Env) (s : S) (c : C) (p : P) (o d e : Dbl) :
    (clock_filter env s c p o d e).1.leap = p.leap ∧
    (clock_filter env s c p o d e).1.stratum = p.stratum ∧
    (clock_filter env s c p o d e).1.refid = p.refid ∧
    (clock_filter env s c p o d e).1.dstaddr = p.dstaddr ∧
    (clock_filter env s c p o d e).1.reach = p.reach ∧
    (clock_filter env s c p o d e).1.jitter =
      dmax (Dbl.sqrt env.sq ((List.range NSTAGE).foldl
        (filterAccum ((filterShift (PHI * (Dbl.ofNat c.t - p.t)) p.f).set 0
          { t := c.t, offset := o, delay := d, disp := e })) (p.disp, p.jitter)).2)
        (LOG2D s.precision) := by
  simp only [clock_filter]
  split_ifs <;> exact ⟨rfl, rfl, rfl, rfl, rfl, rfl⟩

/-- C5 (as amended): after `packet(p, r)` the stratum of the association is 16
when `r.stratum = 0` and `r.stratum` itself otherwise; it lies in [1,16]
exactly when `r.stratum` lies in 0..16. -/
theorem packet_stratum (env : Env) (s : S) (c : C) (p : P) (r : R) :
    (packet env s c p r).p.stratum = (if r.stratum = 0 then MAXSTRAT else r.stratum) ∧
    ((1 ≤ (packet env s c p r).p.stratum ∧ (packet env s c p r).p.stratum ≤ 16) ↔
      (0 ≤ r.stratum ∧ r.stratum ≤ 16)) := by
  have h : (packet env s c p r).p.stratum = (if r.stratum = 0 then MAXSTRAT else r.stratum) := by
    simp only [packet]
    split_ifs <;>
      simp [(clock_filter_frame _ _ _ _ _ _ _).2.1, (poll_update_frame _ _ _).1, packet_header, *]
  refine ⟨h, ?_⟩
  rw [h]
  by_cases h0 : r.stratum = 0
  · simp [h0, MAXSTRAT]
  · simp only [h0, if_false]
    omega

/-- C5 (counterexample): a packet with stratum 17 leaves the association at
stratum 17, outside [1,16]. -/
theorem packet_stratum_counterexample :
    (packet env0 s0 c0 p0 r5).p.stratum = 17 ∧
    ¬ (1 ≤ (packet env0 s0 c0 p0 r5).p.stratum ∧ (packet env0 s0 c0 p0 r5).p.stratum ≤ 16) := by
  decide

/-- For a synchronised server with a valid stratum and reference time,
`packet()` hands a sample to the filter exactly when the sum of the raw
short-format fields, `rootdelay / 2 + rootdisp` in units of 2^-16 s, is below
16. -/
theorem packet_sample_iff_raw (env : Env) (s : S) (c : C) (p : P) (r : R)
    (h1 : r.leap ≠ NOSYNC) (h2 : 1 ≤ r.stratum ∧ r.stratum ≤ 15) (h4 : r.reftime ≤ r.xmt) :
    (packet env s c p r).sample.isSome = true ↔
      (r.rootdelay / 2 + r.rootdisp) % 4294967296 < 16 := by
  have e1 : (packet_header p r).leap = r.leap := rfl
  have hs0 : r.stratum ≠ 0 := by omega
  have e2 : (packet_header p r).stratum = r.stratum := by simp [packet_header, hs0]
  have e3 : (packet_header p r).reftime = r.reftime := rfl
  have hlt : ¬ r.stratum ≥ MAXSTRAT := by
    simp only [MAXSTRAT]
    omega
  simp only [packet, e1, e2, e3, h1, hlt, or_self, if_false, not_lt.mpr h4, or_false]
  have hm : MAXDISP.toNat = 16 := by decide
  rw [hm]
  by_cases h : (r.rootdelay / 2 + r.rootdisp) % 4294967296 ≥ 16
  · simp [h]
  · simp only [h, if_false]
    simp
    omega

/-- C6 (evaluation of the code at the failing input): for a synchronised
stratum-1 packet with root delay 0 and root dispersion 16/65536 s, far below
MAXDISP = 16 s, `packet()` returns without handing a sample to the filter:
the test compares the raw short-format fields with 16. -/
theorem packet_rootdist_check_raw :
    (packet env0 s0 c0 p0 r6).sample = none ∧ r6.leap ≠ NOSYNC ∧ 1 ≤ r6.stratum ∧
    r6.stratum ≤ 15 ∧ r6.reftime ≤ r6.xmt ∧
    Dbl.lt (FP2D r6.rootdelay / Dbl.fin 2 + FP2D r6.rootdisp) (Dbl.ofInt MAXDISP) = true := by
  refine ⟨by decide, by decide, by decide, by decide, by decide, ?_⟩
  simp [FP2D, r6, r0, Dbl.ofNat, Dbl.ofInt, FRIC, Dbl.fin_div, MAXDISP]
  norm_num

/-- The offset `packet()` hands to the filter for a packet that passes the
header checks and is not in broadcast mode. -/
theorem packet_offset (env : Env) (s : S) (c : C) (p : P) (r : R)
    (h1 : r.leap ≠ NOSYNC) (h2 : r.stratum ≠ 0 ∧ r.stratum < MAXSTRAT)
    (h3 : (r.rootdelay / 2 + r.rootdisp) % 4294967296 < MAXDISP.toNat)
    (h4 : r.reftime ≤ r.xmt) (h5 : r.mode ≠ M_BCST) :
    (packet env s c p r).sample.map Sample.offset =
      some ((LFP2D (tsub r.rcv r.org) + LFP2D (tsub r.dst r.xmt)) / Dbl.fin 2) := by
  have hpm : ∀ q : P, (poll_update c q q.hpoll).pmode = q.pmode :=
    fun q => (poll_update_frame c q q.hpoll).2
  simp only [packet]
  have e1 : (packet_header p r).leap = r.leap := rfl
  have e2 : (packet_header p r).stratum = r.stratum := by simp [packet_header, h2.1]
  have e3 : (packet_header p r).reftime = r.reftime := rfl
  have e4 : (packet_header p r).pmode = r.mode := rfl
  simp [e1, e2, e3, h1, h2.2, not_le.mpr h2.2, not_le.mpr h3, not_lt.mpr h4, packet_sample,
    hpm, e4, h5]

/-- C7 (evaluation of the code at the failing input): with `rec` < `org` and
`dst` < `xmt`, each by one second, the offset `packet()` hands to the filter is
+4294967295 s, the unsigned differences converted to double, where the signed
differences give -1 s. -/
theorem packet_offset_unsigned :
    (packet env0 s0 c0 p0 r7).sample.map Sample.offset = some (Dbl.fin 4294967295) ∧
    r7.rcv < r7.org ∧ r7.dst < r7.xmt ∧ spec_offset r7 = -1 := by
  refine ⟨?_, by decide, by decide, ?_⟩
  · rw [packet_offset env0 s0 c0 p0 r7 (by decide) (by decide) (by decide) (by decide)
      (by decide)]
    have e1 : tsub r7.rcv r7.org = 18446744069414584320 := by decide
    have e2 : tsub r7.dst r7.xmt = 18446744069414584320 := by decide
    rw [e1, e2]
    simp [LFP2D, Dbl.ofNat, FRAC, Dbl.fin_div]
    norm_num
  · have e1 : signed64 (tsub r7.rcv r7.org) = -4294967296 := by decide
    have e2 : signed64 (tsub r7.dst r7.xmt) = -4294967296 := by decide
    simp only [spec_offset, e1, e2]
    norm_num

/-! ## Timestamp conversion -/

/-- C8: for every `x` in [0, 2^32), `D2LFP(x)` is defined and equals
`floor(x * 2^32)`, `LFP2D` of it is that integer divided by 2^32, and the
round trip differs from `x` by less than 2^-32. -/
theorem timestamp_roundtrip (x : ℚ) (h0 : 0 ≤ x) (h1 : x < 4294967296) :
    ∃ a : Nat, D2LFP (Dbl.fin x) = some a ∧ (a : Int) = Int.floor (x * 4294967296) ∧
      ∃ y : ℚ, LFP2D a = Dbl.fin y ∧ y = (a : ℚ) / 4294967296 ∧ |y - x| < 1 / 4294967296 := by
  have hv0 : (0 : ℚ) ≤ x * 4294967296 := by positivity
  have hfl0 : 0 ≤ Int.floor (x * 4294967296) := Int.floor_nonneg.mpr hv0
  refine ⟨Int.toNat (Int.floor (x * 4294967296)), ?_, Int.toNat_of_nonneg hfl0, ?_⟩
  · simp only [D2LFP, Dbl.fin_mul, FRAC]
    have hlt : x * 4294967296 < 18446744073709551616 := by linarith
    have hgt : (-1 : ℚ) < x * 4294967296 := by linarith
    simp [hlt, hgt]
  · refine ⟨((Int.toNat (Int.floor (x * 4294967296)) : Nat) : ℚ) / 4294967296, ?_, rfl, ?_⟩
    · simp [LFP2D, Dbl.ofNat, FRAC, Dbl.fin_div]
    · have hcast : ((Int.toNat (Int.floor (x * 4294967296)) : Nat) : ℚ) =
          ((Int.floor (x * 4294967296) : Int) : ℚ) := by
        have := Int.toNat_of_nonneg hfl0
        exact_mod_cast congrArg (fun z : Int => (z : ℚ)) this
      rw [hcast]
      have hle := Int.floor_le (x * 4294967296)
      have hlt := Int.lt_floor_add_one (x * 4294967296)
      rw [abs_lt]
      constructor
      · have : ((Int.floor (x * 4294967296) : Int) : ℚ) / 4294967296 > x - 1 / 4294967296 := by
          rw [gt_iff_lt, lt_div_iff₀ (by norm_num)]
          linarith
        linarith
      · have : ((Int.floor (x * 4294967296) : Int) : ℚ) / 4294967296 ≤ x := by
          rw [div_le_iff₀ (by norm_num)]
          linarith
        linarith

/-- C8 (witness): the round trip of one third of a second. -/
theorem timestamp_roundtrip_witness :
    ∃ a : Nat, D2LFP (Dbl.fin (1 / 3)) = some a ∧
      (a : Int) = Int.floor ((1 / 3 : ℚ) * 4294967296) ∧
      ∃ y : ℚ, LFP2D a = Dbl.fin y ∧ y = (a : ℚ) / 4294967296 ∧
        |y - 1 / 3| < 1 / 4294967296 :=
  timestamp_roundtrip (1 / 3) (by norm_num) (by norm_num)

/-! ## Clock filter: peer jitter -/

/-- The sum under the root for the first sample of a fresh association, when
the sample offset is 1 s: the eight terms `SQUARE(f[i].offset - f[0].offset)`
are -1 each, added to the old jitter 2^-18. -/
theorem first_sample_radicand (d e : Dbl) :
    ((List.range NSTAGE).foldl
        (filterAccum ((filterShift (PHI * (Dbl.ofNat c0.t - pClr.t)) pClr.f).set 0
          { t := c0.t, offset := Dbl.fin 1, delay := d, disp := e })) (pClr.disp, pClr.jitter)).2
      = Dbl.fin (1 / 262144 - 8) := by
  have hr : List.range NSTAGE = [0, 1, 2, 3, 4, 5, 6, 7] := by decide
  have hr1 : List.range' 1 (NSTAGE - 1) = [1, 2, 3, 4, 5, 6, 7] := by decide
  simp [filterShift, shiftStage, filterAccum, hr, hr1, pClr, clear_fields, p0, s0, c0, env0,
    SQUARE_diff, LOG2D, Dbl.ofNat, Dbl.ofInt, Dbl.fin_div, PHI]
  norm_num

/-- The clamp `max(SQRT(x), y)` is NaN when `x` is negative. -/
theorem dmax_sqrt_neg (sq : ℚ → ℚ) (a : ℚ) (b : Dbl) (h : a < 0) :
    dmax (Dbl.sqrt sq (Dbl.fin a)) b = Dbl.nan := by
  simp [Dbl.sqrt, dmax, h]

/-- C9 (evaluation of the code at the failing input): for a fresh association
and the sample (1, 0, 0), `clock_filter()` takes the root of 2^-18 - 8, so
the jitter it stores is NaN and the comparison `p.jitter >= 2^(s.precision)`
is false. -/
theorem clock_filter_jitter_nan :
    (clock_filter env0 s0 c0 pClr (Dbl.fin 1) (Dbl.fin 0) (Dbl.fin 0)).1.jitter = Dbl.nan ∧
    Dbl.ge (clock_filter env0 s0 c0 pClr (Dbl.fin 1) (Dbl.fin 0) (Dbl.fin 0)).1.jitter
      (LOG2D s0.precision) = false := by
  have h : (clock_filter env0 s0 c0 pClr (Dbl.fin 1) (Dbl.fin 0) (Dbl.fin 0)).1.jitter
      = Dbl.nan := by
    rw [(clock_filter_frame env0 s0 c0 pClr (Dbl.fin 1) (Dbl.fin 0) (Dbl.fin 0)).2.2.2.2.2,
      first_sample_radicand]
    exact dmax_sqrt_neg _ _ _ (by norm_num)
  rw [h]
  exact ⟨rfl, by simp [Dbl.ge]⟩

/-! ## Fitness -/

/-- The value of `LOG2D` is a number. -/
theorem LOG2D_fin (a : Int) : ∃ q : ℚ, LOG2D a = Dbl.fin q := by
  unfold LOG2D
  split
  · refine ⟨1 / ((1 <<< (-a).toNat : Nat) : ℚ), ?_⟩
    have : ((1 <<< (-a).toNat : Nat) : ℚ) ≠ 0 := by
      rw [Nat.one_shiftLeft]
      positivity
    simp [Dbl.ofNat, Dbl.fin_div, this]
  · exact ⟨_, rfl⟩

/-- Against a number, `a > b` is false exactly when `a <= b` or `a` is NaN. -/
theorem gt_fin_false_iff (a : Dbl) (b : ℚ) :
    Dbl.gt a (Dbl.fin b) = false ↔ (Dbl.le a (Dbl.fin b) = true ∨ a = Dbl.nan) := by
  cases a <;> simp [Dbl.gt, Dbl.lt, Dbl.le]

/-- The four tests of `fit()`, in the code's terms. -/
theorem fit_true_iff (s : S) (c : C) (p : P) :
    fit s c p = true ↔
      (p.leap ≠ NOSYNC ∧ p.stratum < MAXSTRAT ∧
        Dbl.gt (root_dist c p) (Dbl.ofInt MAXDIST + PHI * LOG2D s.poll) = false ∧
        toU64 p.refid ≠ p.dstaddr ∧ p.refid ≠ s.refid ∧ p.reach ≠ 0) := by
  unfold fit
  by_cases h1 : p.leap = NOSYNC ∨ p.stratum ≥ MAXSTRAT
  · simp only [h1, if_true]
    rcases h1 with h | h
    · simp [h]
    · simp [not_lt.mpr h]
  · simp only [h1, if_false]
    push_neg at h1
    by_cases h2 : Dbl.gt (root_dist c p) (Dbl.ofInt MAXDIST + PHI * LOG2D s.poll) = true
    · simp [h2]
    · simp only [h2]
      simp only [Bool.not_eq_true] at h2
      by_cases h3 : toU64 p.refid = p.dstaddr ∨ p.refid = s.refid
      · simp only [h3, if_true]
        rcases h3 with h | h <;> simp [h]
      · simp only [h3, if_false]
        push_neg at h3
        by_cases h4 : p.reach = 0
        · simp [h4]
        · simp [h1.1, h1.2, h2, h3.1, h3.2, h4]

/-- C10 (as amended): `fit(p)` returns TRUE exactly when `p.leap != NOSYNC`,
`p.stratum < MAXSTRAT`, the root distance is not greater than
`MAXDIST + PHI * 2^(s.poll)` (it is at most the bound, or it is NaN),
`p.refid != p.dstaddr` (the C comparison: the `char` converted to the
unsigned type of the address), `p.refid != s.refid` and `p.reach != 0`. -/
theorem fit_iff (s : S) (c : C) (p : P) :
    fit s c p = true ↔
      (p.leap ≠ NOSYNC ∧ p.stratum < MAXSTRAT ∧
        (Dbl.le (root_dist c p) (Dbl.ofInt MAXDIST + PHI * LOG2D s.poll) = true ∨
          root_dist c p = Dbl.nan) ∧
        toU64 p.refid ≠ p.dstaddr ∧ p.refid ≠ s.refid ∧ p.reach ≠ 0) := by
  obtain ⟨q, hq⟩ := LOG2D_fin s.poll
  have hb : Dbl.ofInt MAXDIST + PHI * LOG2D s.poll =
      Dbl.fin ((MAXDIST : ℚ) + 15 / 1000000 * q) := by
    simp [hq, PHI, Dbl.ofInt]
  rw [fit_true_iff, hb, gt_fin_false_iff]

/-- The loop test `p->refid == p->dstaddr` of `fit()` is made after the
conversion of the `char`: an association otherwise fit, with reference
identifier -1, is not fit when its local address is 2^64 - 1. -/
theorem fit_refid_converted :
    fit s0 c0 { pS 0 with refid := -1 } = true ∧
    fit s0 c0 { pS 0 with refid := -1, dstaddr := 18446744073709551615 } = false := by
  decide!

/-- The association a fresh one becomes after its first valid packet, with a
sample offset of 1 s: the header fields are those of the packet and the
jitter is NaN. -/
theorem p10_fields :
    p10.leap = 0 ∧ p10.stratum = 1 ∧ p10.refid = 1 ∧ p10.dstaddr = 0 ∧ p10.reach = 1 ∧
    p10.jitter = Dbl.nan := by
  have e1 : tsub r10.rcv r10.org = 4294967296 := by decide
  have e2 : tsub r10.dst r10.xmt = 4294967296 := by decide
  have ho : (LFP2D (tsub r10.rcv r10.org) + LFP2D (tsub r10.dst r10.xmt)) / Dbl.fin 2
      = Dbl.fin 1 := by
    rw [e1, e2]
    simp [LFP2D, Dbl.ofNat, FRAC, Dbl.fin_div]
  have hp : p10 = (clock_filter env0 s0 c0 q10 (Dbl.fin 1)
      (dmax (LFP2D (tsub r10.dst r10.org) - LFP2D (tsub r10.rcv r10.xmt)) (LOG2D s0.precision))
      (LOG2D r10.precision + LOG2D s0.precision + PHI * LFP2D (tsub r10.dst r10.org))).1 := by
    rw [← ho]
    rfl
  obtain ⟨h1, h2, h3, h4, h5, h6⟩ := clock_filter_frame env0 s0 c0 q10 (Dbl.fin 1)
      (dmax (LFP2D (tsub r10.dst r10.org) - LFP2D (tsub r10.rcv r10.xmt)) (LOG2D s0.precision))
      (LOG2D r10.precision + LOG2D s0.precision + PHI * LFP2D (tsub r10.dst r10.org))
  rw [hp, h1, h2, h3, h4, h5, h6]
  refine ⟨by decide, by decide, by decide, by decide, by decide, ?_⟩
  have hq : q10.t = pClr.t ∧ q10.f = pClr.f ∧ q10.disp = pClr.disp ∧ q10.jitter = pClr.jitter :=
    ⟨rfl, rfl, rfl, rfl⟩
  rw [hq.1, hq.2.1, hq.2.2.1, hq.2.2.2, first_sample_radicand]
  exact dmax_sqrt_neg _ _ _ (by norm_num)

/-- C10 (counterexample): the association left by the first valid packet of a
fresh association has a NaN root distance; `fit()` returns TRUE for it although
`root_dist(p) <= MAXDIST + PHI * 2^(s.poll)` is false. -/
theorem fit_nan_counterexample :
    fit s0 c0 p10 = true ∧
    Dbl.le (root_dist c0 p10) (Dbl.ofInt MAXDIST + PHI * LOG2D s0.poll) = false := by
  obtain ⟨h1, h2, h3, h4, h5, h6⟩ := p10_fields
  have hr : root_dist c0 p10 = Dbl.nan := by
    simp [root_dist, h6]
  have hu : toU64 1 ≠ 0 := by decide
  constructor
  · rw [fit_true_iff, hr, h1, h2, h3, h4, h5]
    simp [s0, NOSYNC, MAXSTRAT, Dbl.gt, hu]
  · rw [hr]
    simp

/-! ## Clear -/

/-- For an association that is not destroyed, `clear()` leaves the members of
the clear area that it does not assign as they were, and sets the members it
assigns. -/
theorem clear_fields_keeps (env : Env) (s : S) (c : C) (p : P) (kiss : Int) :
    (clear_fields env s c p kiss).org = p.org ∧ (clear_fields env s c p kiss).rcv = p.rcv ∧
    (clear_fields env s c p kiss).xmt = p.xmt ∧
    (clear_fields env s c p kiss).offset = p.offset ∧
    (clear_fields env s c p kiss).delay = p.delay ∧
    (clear_fields env s c p kiss).burst = p.burst ∧
    (clear_fields env s c p kiss).reach = p.reach ∧ (clear_fields env s c p kiss).ttl = p.ttl ∧
    (clear_fields env s c p kiss).leap = NOSYNC ∧
    (clear_fields env s c p kiss).stratum = MAXSTRAT ∧
    (clear_fields env s c p kiss).ppoll = MAXPOLL ∧
    (clear_fields env s c p kiss).hpoll = MINPOLL ∧
    (clear_fields env s c p kiss).disp = Dbl.ofInt MAXDISP ∧
    (clear_fields env s c p kiss).refid = kiss ∧
    ∀ e ∈ (clear_fields env s c p kiss).f, e.disp = Dbl.ofInt MAXDISP := by
  refine ⟨rfl, rfl, rfl, rfl, rfl, rfl, rfl, rfl, rfl, rfl, rfl, rfl, rfl, rfl, ?_⟩
  intro e he
  simp only [clear_fields, List.mem_map] at he
  obtain ⟨a, _, rfl⟩ := he
  rfl

/-- C11 (evaluation of the code at the failing input): `clear(p, X_STALE)` on
a persistent association with `org` = 3, `rec` = 4, `xmt` = 5, `reach` = 255,
`burst` = 2 and `ttl` = 1 leaves those members as they were, not 0: the byte
count of the `memset` call is 0. -/
theorem clear_keeps_clear_area :
    ((clear env0 stK 0 X_STALE).bind fun st => deref st 0).map
        (fun p => (p.org, p.rcv, p.xmt, p.reach, p.burst, p.ttl)) =
      some (3, 4, 5, 255, 2, 1) ∧
    pK.flags &&& P_EPHEM = 0 := by
  decide

/-- C12: for every association `p` and every kiss code, `clear(p, kiss)`
returns with `s.p` not referring to `p`: if `s.p` referred to `p` before the
call it is null afterwards, and otherwise it is unchanged. -/
theorem clear_system_peer (env : Env) (st : State) (i : Nat) (kiss : Int) (p : P)
    (hp : deref st i = some p) :
    ∃ st1, clear env st i kiss = some st1 ∧ st1.s.p ≠ some i ∧
      (st.s.p = some i → st1.s.p = none) ∧ (st.s.p ≠ some i → st1.s.p = st.s.p) := by
  unfold clear
  rw [hp]
  by_cases hs : st.s.p = some i <;> by_cases hk : kiss ≠ X_INIT ∧ p.flags &&& P_EPHEM ≠ 0 <;>
    simp [hs, hk]

/-- C12 (witness): clearing the system peer leaves no system peer. -/
theorem clear_system_peer_witness :
    ∃ st1, clear env0 stK 0 X_STALE = some st1 ∧ st1.s.p ≠ some 0 ∧
      (stK.s.p = some 0 → st1.s.p = none) ∧ (stK.s.p ≠ some 0 → st1.s.p = stK.s.p) :=
  clear_system_peer env0 stK 0 X_STALE pK rfl

/-! ## Clock selection -/

/-- C13 (evaluation of the code at the failing input): for four fit peers with
offsets 0.001, 0.002, 0.0015 and 1.000 and root distance 0.01, the twelve
chime entries are scanned in the order they were written and against
`n` = 12, so neither scan finds an endpoint: `low` stays 2e9 and `high` -2e9,
no entry survives, and `clock_select()` returns with `s.n` = 0, no system
peer, and `s.offset` still 0. -/
theorem clock_select_four_peers :
    fit sSel c0 (pS (1 / 1000)) = true ∧ fit sSel c0 (pS (2 / 1000)) = true ∧
    fit sSel c0 (pS (15 / 10000)) = true ∧ fit sSel c0 (pS 1) = true ∧
    root_dist c0 (pS 1) = Dbl.fin (1 / 100) ∧
    (clock_select_survivors st13 [0, 1, 2, 3]).map (fun a => (a.n, a.low, a.high, a.s.n)) =
      some (12, Dbl.fin 2000000000, Dbl.fin (-2000000000), 0) ∧
    (clock_select env0 st13 [0, 1, 2, 3] 0).map (fun o => (o.st.s.n, o.st.s.p, o.st.s.offset)) =
      some (0, none, Dbl.fin 0) := by
  decide!

/-- C14 (evaluation of the code at the failing input): for the single fit
association `p10` (offset 1, root distance NaN) the survivor loop leaves
`s.n` = 2 with `low` = 2e9 and `high` = -2e9, so no midpoint lies in
[low, high]; both survivors are written to `s.v[3]`, and `s.v[0]` and
`s.v[1]` stay null. -/
theorem clock_select_survivor_count :
    fit sSel c0 p10 = true ∧ p10.offset = Dbl.fin 1 ∧
    (clock_select_survivors st14 [0]).map (fun a => (a.n, a.s.n, a.low, a.high)) =
      some (3, 2, Dbl.fin 2000000000, Dbl.fin (-2000000000)) ∧
    (clock_select_survivors st14 [0]).map
        (fun a => ((a.s.v.getD 0 default).p, (a.s.v.getD 1 default).p, (a.s.v.getD 3 default).p)) =
      some (none, none, some 0) := by
  decide!

/-- C16 (evaluation of the code at the failing input): the previous system
peer, association 1, is unreachable and so not fit; the survivor entries
`s.v[0]` and `s.v[1]` point to association 0, which has the same stratum.
`clock_select()` returns with association 1 as system peer. -/
theorem clock_select_keeps_unlisted_peer :
    fit st16.s c0 pOld = false ∧ pOld.stratum = p10.stratum ∧
    (clock_select env0 st16 [0, 1] 0).map
        (fun o => (o.st.s.p, o.st.s.n, (o.st.s.v.getD 0 default).p, (o.st.s.v.getD 1 default).p)) =
      some (some 1, 2, some 0, some 0) := by
  decide!

/-- C17 (evaluation of the code at the failing input): with `s.n` = 1 and the
survivor array holding pointers to two associations, of offsets 0 and 1 and
equal root distance, `clock_combine()` sets `s.offset` to 0.5, the weighted
mean of both; the mean over the `s.n` survivors is 0. -/
theorem clock_combine_ignores_count :
    (clock_combine env0 c0 assoc17 s17).map S.offset = some (Dbl.fin (1 / 2)) ∧ s17.n = 1 ∧
    spec_combine_offset c0 assoc17 s17 = Dbl.fin 0 := by
  decide!

/-! ## Clock discipline -/

/-- C18: for every state of the records `s` and `c` and every offset with
`|offset| > PANICT`, `local_clock()` returns PANIC, leaves `s` and `c` as they
were and does not call `step_time()`. -/
theorem local_clock_panic (env : Env) (s : S) (c : C) (p : P) (offset : Dbl) (state0 : Int)
    (h : Dbl.gt (Dbl.fabs offset) (Dbl.ofInt PANICT) = true) :
    local_clock env s c p offset state0 = some { rval := PANIC, s := s, c := c, steps := [] } := by
  unfold local_clock
  simp [h]

/-- C18 (witness): an offset of 1200 s. -/
theorem local_clock_panic_witness :
    local_clock env0 s0 cSync p0 (Dbl.fin 1200) 0 =
      some { rval := PANIC, s := s0, c := cSync, steps := [] } :=
  local_clock_panic env0 s0 cSync p0 (Dbl.fin 1200) 0 (by decide!)

/-- In state SYNC an offset above the step threshold and not above the panic
threshold makes `local_clock()` return SLEW with the records `s` and `c` as
they were. -/
theorem local_clock_sync_outlier (env : Env) (s : S) (c : C) (p : P) (offset : Dbl)
    (state0 : Int) (hc : c.state = SYNC)
    (h1 : Dbl.gt (Dbl.fabs offset) (Dbl.ofInt PANICT) = false)
    (h2 : Dbl.gt (Dbl.fabs offset) STEPT = true) :
    local_clock env s c p offset state0 = some { rval := SLEW, s := s, c := c, steps := [] } := by
  unfold local_clock
  simp [h1, h2, hc]

/-- From state SYNC `local_clock()` never calls `step_time()` and never leaves
state SYNC. -/
theorem local_clock_sync_no_step (env : Env) (s : S) (c : C) (p : P) (offset : Dbl)
    (state0 : Int) (o : ClockOut) (hc : c.state = SYNC)
    (h : local_clock env s c p offset state0 = some o) :
    o.steps = [] ∧ o.c.state = SYNC := by
  unfold local_clock at h
  have h1 : ¬ c.state = NSET := by rw [hc]; decide
  have h2 : ¬ c.state = FSET := by rw [hc]; decide
  have h3 : ¬ c.state = FREQ := by rw [hc]; decide
  split at h
  · cases h; exact ⟨rfl, hc⟩
  · split at h
    · simp only [hc, if_true] at h
      cases h; exact ⟨rfl, hc⟩
    · simp only [h1, h2, h3, if_false] at h
      cases hr : rstclock s
          { c with jitter := Dbl.sqrt env.sq (c.jitter * c.jitter +
              (dmax (Dbl.fabs (offset - c.last)) (LOG2D s.precision) *
                dmax (Dbl.fabs (offset - c.last)) (LOG2D s.precision) - c.jitter * c.jitter) /
                Dbl.ofInt AVG) } SYNC p.t offset with
      | none => rw [hr] at h; exact absurd h (by simp)
      | some a =>
        rw [hr] at h
        simp only [Option.map_some', Option.some.injEq] at h
        rw [← h]
        unfold rstclock at hr
        cases ht : toTstamp offset with
        | none => rw [ht] at hr; exact absurd hr (by simp)
        | some ts =>
          rw [ht] at hr
          simp only [Option.map_some', Option.some.injEq] at hr
          rw [← hr]
          simp only [local_clock_tail, poll_adjust]
          split_ifs <;> simp

/-- C19 (evaluation of the code at the failing input): in state SYNC an
offset of 0.5 s makes `local_clock()` return SLEW without a call of
`step_time()`, and `c.state` is still SYNC, not SPIK: the assignment
`state = SPIK` is to the local variable. -/
theorem local_clock_sync_spike :
    local_clock env0 s0 cSync p0 (Dbl.fin (1 / 2)) 0 =
      some { rval := SLEW, s := s0, c := cSync, steps := [] } ∧
    cSync.state = SYNC ∧ SYNC ≠ SPIK := by
  decide!

/-- C20 (evaluation of the code at the failing input): from state SYNC,
twenty samples of offset 0.5 s at the times 60, 120, ..., 1200 pass through
`clock_update()` without any call of `step_time()`; the combined offset is
0.5 s, the state stays SYNC and `s.poll` stays MINPOLL. -/
theorem clock_update_never_steps :
    (feed env0 0 0 [60] st20 []).map (fun a => a.1.s.offset) = some (Dbl.fin (1 / 2)) ∧
    (feed env0 0 0 times20 st20 []).map (fun a => (a.2, a.1.s.poll, a.1.c.state, a.1.s.t)) =
      some ([], MINPOLL, SYNC, 1200) := by
  decide!

/-! ## Clock discipline: state trajectory, frequency and poll bounds -/

/-- In state FREQ a sample that is not above the step threshold leaves the
discipline in state FREQ: the in-range path of `local_clock()` for FREQ ends
without a call of `rstclock()`. -/
theorem local_clock_freq_stays (env : Env) (s : S) (c : C) (p : P) (offset : Dbl) (state0 : Int)
    (hc : c.state = FREQ) (h1 : Dbl.gt (Dbl.fabs offset) STEPT = false) :
    ∃ o, local_clock env s c p offset state0 = some o ∧ o.c.state = FREQ ∧ o.steps = [] := by
  have hp : Dbl.gt (Dbl.fabs offset) (Dbl.ofInt PANICT) = false := by
    cases offset <;> simp_all [Dbl.gt, Dbl.fabs, Dbl.lt, STEPT, PANICT, Dbl.ofInt]
    linarith
  have e1 : ¬ FREQ = NSET := by decide
  have e2 : ¬ FREQ = FSET := by decide
  unfold local_clock
  rw [if_neg (by simp [hp]), if_neg (by simp [h1])]
  simp only [hc, if_neg e1, if_neg e2, if_true]
  split_ifs
  · exact ⟨_, rfl, rfl, rfl⟩
  · refine ⟨_, rfl, ?_, rfl⟩
    simp only [local_clock_tail, poll_adjust]
    split_ifs <;> rfl

/-- C21 (evaluation of the code at the failing input): from state NSET, twenty
samples of offset 1 ms at the times 60, 120, ..., 1200 take the discipline to
FREQ on the first sample and leave it in FREQ on every later one, also after
the stepout interval: SYNC is never entered. -/
theorem local_clock_never_sync :
    c0.state = NSET ∧ Dbl.gt (Dbl.fabs (Dbl.fin (1 / 1000))) STEPT = false ∧
    (discipline env0 p0 0 samples21 s0 c0 []).map (fun a => a.2.2) =
      some (List.replicate 20 FREQ) ∧
    FREQ ≠ SYNC := by
  decide!

/-- C22 (evaluation of the code at the failing input): in state FREQ, after
the stepout interval, with `p.t` = `s.t` and `offset` = `c.offset` = 0,
`local_clock()` computes `freq` = 0 / 0 = NaN; the clamp
`max(min(MAXFREQ, freq), -MAXFREQ)` lets it through and `c.freq` is NaN
afterwards, although it was 0 before.  The same happens when the call comes
from `clock_update()`, which has set `s.t = p->t` before. -/
theorem local_clock_freq_nan :
    Dbl.le (-MAXFREQ) cFreq.freq = true ∧ Dbl.le cFreq.freq MAXFREQ = true ∧
    (local_clock env0 s0 cFreq p0 (Dbl.fin 0) 0).map (fun o => (o.rval, o.c.freq)) =
      some (SLEW, Dbl.nan) ∧
    (clock_update env0 st22 0 0).map (fun o => (o.st.s.offset, o.st.c.freq)) =
      some (Dbl.fin 0, Dbl.nan) ∧
    Dbl.le (-MAXFREQ) Dbl.nan = false ∧ Dbl.le Dbl.nan MAXFREQ = false := by
  decide!

/-- The poll-adjust code keeps `s.poll` and `c.count` in their bounds, moves
`s.poll` by at most one and leaves `c.count` = 0 when it moved. -/
theorem poll_adjust_step (s : S) (c : C)
    (hp : MINPOLL ≤ s.poll ∧ s.poll ≤ MAXPOLL) (hc : -LIMIT ≤ c.count ∧ c.count ≤ LIMIT) :
    PollAdjusted s.poll (poll_adjust s c).1.poll (poll_adjust s c).2.count := by
  unfold PollAdjusted poll_adjust
  simp only [MINPOLL, MAXPOLL, LIMIT] at *
  split_ifs <;> simp <;> omega

/-- The end of `local_clock()` adjusts `s.poll` and `c.count` as the
poll-adjust code does and adds no call of `step_time()`. -/
theorem local_clock_tail_step (env : Env) (s : S) (c : C) (freq : Dbl) (rval : Int)
    (steps : List Dbl)
    (hp : MINPOLL ≤ s.poll ∧ s.poll ≤ MAXPOLL) (hc : -LIMIT ≤ c.count ∧ c.count ≤ LIMIT) :
    PollAdjusted s.poll (local_clock_tail env s c freq rval steps).s.poll
      (local_clock_tail env s c freq rval steps).c.count ∧
    (local_clock_tail env s c freq rval steps).steps = steps :=
  ⟨poll_adjust_step s _ hp hc, rfl⟩

/-- An offset that is a number and not above the step threshold has a
`tstamp` value. -/
theorem toTstamp_in_range (offset : Dbl) (h : Dbl.gt (Dbl.fabs offset) STEPT = false)
    (hn : offset ≠ Dbl.nan) : ∃ ts, toTstamp offset = some ts := by
  cases offset with
  | fin v =>
    simp only [Dbl.gt, Dbl.fabs, Dbl.lt, STEPT, decide_eq_false_iff_not, not_lt] at h
    have h2 := abs_le.mp h
    refine ⟨Int.toNat (Int.floor v), ?_⟩
    simp only [toTstamp]
    rw [if_pos]
    constructor <;> linarith [h2.1, h2.2]
  | pinf => simp [Dbl.gt, Dbl.fabs, Dbl.lt, STEPT] at h
  | ninf => simp [Dbl.gt, Dbl.fabs, Dbl.lt, STEPT] at h
  | nan => exact absurd rfl hn

/-- From `s.poll` = MINPOLL and `c.count` = 0 the poll-adjust code leaves
`s.poll` = MINPOLL and `c.count` in its bounds. -/
theorem poll_adjust_floor (s : S) (c : C) (hp : s.poll = MINPOLL) (hc : c.count = 0) :
    (poll_adjust s c).1.poll = MINPOLL ∧ -LIMIT ≤ (poll_adjust s c).2.count ∧
      (poll_adjust s c).2.count ≤ LIMIT := by
  have a1 : ¬ (0 : Int) + MINPOLL > LIMIT := by decide
  have a2 : ¬ (0 : Int) - 2 * MINPOLL < -LIMIT := by decide
  unfold poll_adjust
  rw [hp, hc, if_neg a1, if_neg a2]
  have b1 : -LIMIT ≤ (0 : Int) + MINPOLL ∧ (0 : Int) + MINPOLL ≤ LIMIT := by decide
  have b2 : -LIMIT ≤ (0 : Int) - 2 * MINPOLL ∧ (0 : Int) - 2 * MINPOLL ≤ LIMIT := by decide
  split_ifs
  · exact ⟨hp, b1.1, b1.2⟩
  · exact ⟨hp, b2.1, b2.2⟩

/-- C23 (as amended): with `s.poll` in [MINPOLL, MAXPOLL] and `c.count` in
[-LIMIT, LIMIT] before a call of `local_clock()` on an offset that is not NaN,
both hold after it; in a call that does not step the clock `s.poll` moves by
at most one and `c.count` is 0 when it moved; a call that steps the clock
leaves `s.poll` = MINPOLL. -/
theorem local_clock_poll_bounds (env : Env) (s : S) (c : C) (p : P) (offset : Dbl)
    (state0 : Int)
    (hp : MINPOLL ≤ s.poll ∧ s.poll ≤ MAXPOLL) (hc : -LIMIT ≤ c.count ∧ c.count ≤ LIMIT)
    (hn : offset ≠ Dbl.nan) :
    ∃ o, local_clock env s c p offset state0 = some o ∧
      MINPOLL ≤ o.s.poll ∧ o.s.poll ≤ MAXPOLL ∧ -LIMIT ≤ o.c.count ∧ o.c.count ≤ LIMIT ∧
      (o.steps = [] →
        o.s.poll = s.poll ∨ ((o.s.poll = s.poll + 1 ∨ o.s.poll = s.poll - 1) ∧ o.c.count = 0)) ∧
      (o.steps ≠ [] → o.s.poll = MINPOLL) := by
  have keep : ∀ (rv : Int) (s1 : S) (c1 : C), s1.poll = s.poll → c1.count = c.count →
      ∃ o, some ({ rval := rv, s := s1, c := c1, steps := [] } : ClockOut) = some o ∧
        MINPOLL ≤ o.s.poll ∧ o.s.poll ≤ MAXPOLL ∧ -LIMIT ≤ o.c.count ∧ o.c.count ≤ LIMIT ∧
        (o.steps = [] →
          o.s.poll = s.poll ∨ ((o.s.poll = s.poll + 1 ∨ o.s.poll = s.poll - 1) ∧ o.c.count = 0)) ∧
        (o.steps ≠ [] → o.s.poll = MINPOLL) := by
    intro rv s1 c1 h1 h2
    refine ⟨_, rfl, ?_, ?_, ?_, ?_, fun _ => Or.inl h1, fun h => absurd rfl h⟩
    · show MINPOLL ≤ s1.poll
      rw [h1]; exact hp.1
    · show s1.poll ≤ MAXPOLL
      rw [h1]; exact hp.2
    · show -LIMIT ≤ c1.count
      rw [h2]; exact hc.1
    · show c1.count ≤ LIMIT
      rw [h2]; exact hc.2
  have tail : ∀ (s1 : S) (c1 : C) (fr : Dbl) (rv : Int), s1.poll = s.poll → c1.count = c.count →
      ∃ o, some (local_clock_tail env s1 c1 fr rv []) = some o ∧
        MINPOLL ≤ o.s.poll ∧ o.s.poll ≤ MAXPOLL ∧ -LIMIT ≤ o.c.count ∧ o.c.count ≤ LIMIT ∧
        (o.steps = [] →
          o.s.poll = s.poll ∨ ((o.s.poll = s.poll + 1 ∨ o.s.poll = s.poll - 1) ∧ o.c.count = 0)) ∧
        (o.steps ≠ [] → o.s.poll = MINPOLL) := by
    intro s1 c1 fr rv h1 h2
    obtain ⟨⟨q1, q2, q3, q4, q5⟩, q6⟩ := local_clock_tail_step env s1 c1 fr rv []
      (by rw [h1]; exact hp) (by rw [h2]; exact hc)
    rw [h1] at q5
    exact ⟨_, rfl, q1, q2, q3, q4, fun _ => q5, fun h => absurd q6 h⟩
  have stepped : ∀ (s1 : S) (c1 : C) (fr : Dbl), s1.poll = MINPOLL → c1.count = 0 →
      ∃ o, some (local_clock_tail env s1 c1 fr STEP [offset]) = some o ∧
        MINPOLL ≤ o.s.poll ∧ o.s.poll ≤ MAXPOLL ∧ -LIMIT ≤ o.c.count ∧ o.c.count ≤ LIMIT ∧
        (o.steps = [] →
          o.s.poll = s.poll ∨ ((o.s.poll = s.poll + 1 ∨ o.s.poll = s.poll - 1) ∧ o.c.count = 0)) ∧
        (o.steps ≠ [] → o.s.poll = MINPOLL) := by
    intro s1 c1 fr h1 h2
    obtain ⟨q1, q2, q3⟩ := poll_adjust_floor s1
      { c1 with
        freq := dmax (dmin MAXFREQ (fr + c1.freq)) (-MAXFREQ)
        wander := Dbl.sqrt env.sq
          (c1.wander * c1.wander + ((fr + c1.freq) * (fr + c1.freq) - c1.wander * c1.wander) /
            Dbl.ofInt AVG) } h1 h2
    refine ⟨_, rfl, ?_, ?_, q2, q3, fun h => absurd h (by simp [local_clock_tail]), fun _ => q1⟩
    · show MINPOLL ≤ (local_clock_tail env s1 c1 fr STEP [offset]).s.poll
      simp only [local_clock_tail, q1]
      decide
    · show (local_clock_tail env s1 c1 fr STEP [offset]).s.poll ≤ MAXPOLL
      simp only [local_clock_tail, q1]
      decide
  have h0 : toTstamp (Dbl.fin 0) = some 0 := by
    simp [toTstamp]
  by_cases hstep : Dbl.gt (Dbl.fabs offset) STEPT = true
  · unfold local_clock
    simp only [hstep, rstclock, h0, Option.map_some', if_true]
    split_ifs
    all_goals first
      | exact keep _ _ _ rfl rfl
      | exact stepped _ _ _ rfl rfl
      | exact ⟨_, rfl, le_refl _, (by decide : MINPOLL ≤ MAXPOLL), (by decide : -LIMIT ≤ (0 : Int)),
          (by decide : (0 : Int) ≤ LIMIT), fun h => absurd h (by simp), fun _ => rfl⟩
  · have hstep1 : Dbl.gt (Dbl.fabs offset) STEPT = false := by simpa using hstep
    obtain ⟨ts, ht⟩ := toTstamp_in_range offset hstep1 hn
    unfold local_clock
    simp only [hstep1, rstclock, ht, Option.map_some', Bool.false_eq_true, if_false]
    split_ifs
    all_goals first
      | exact keep _ _ _ rfl rfl
      | exact tail _ _ _ _ rfl rfl

/-- C23 (witness): a sample of 1 ms in state SYNC. -/
theorem local_clock_poll_bounds_witness :
    ∃ o, local_clock env0 s0 cSync p0 (Dbl.fin (1 / 1000)) 0 = some o ∧
      MINPOLL ≤ o.s.poll ∧ o.s.poll ≤ MAXPOLL ∧ -LIMIT ≤ o.c.count ∧ o.c.count ≤ LIMIT ∧
      (o.steps = [] →
        o.s.poll = s0.poll ∨ ((o.s.poll = s0.poll + 1 ∨ o.s.poll = s0.poll - 1) ∧ o.c.count = 0)) ∧
      (o.steps ≠ [] → o.s.poll = MINPOLL) :=
  local_clock_poll_bounds env0 s0 cSync p0 (Dbl.fin (1 / 1000)) 0 (by decide) (by decide)
    (by simp)

/-- C23 (counterexample): in state FSET with `s.poll` = 10 and `c.count` = 0 an
offset of 0.5 s steps the clock and `local_clock()` leaves `s.poll` = 6, four
steps below. -/
theorem local_clock_step_clamps_poll :
    (MINPOLL ≤ s23.poll ∧ s23.poll ≤ MAXPOLL) ∧ (-LIMIT ≤ cFset.count ∧ cFset.count ≤ LIMIT) ∧
    (local_clock env0 s23 cFset p0 (Dbl.fin (1 / 2)) 0).map (fun o => (o.rval, o.steps, o.s.poll)) =
      some (STEP, [Dbl.fin (1 / 2)], 6) ∧ s23.poll = 10 := by
  decide!

/-! ## Poll process and adjust loop -/

/-- A pointer that refers to an association lies inside the association
memory. -/
theorem deref_lt (st : State) (i : Nat) (p : P) (h : deref st i = some p) :
    i < st.assoc.length := by
  by_contra hlt
  have : deref st i = none := by
    simp only [deref, List.getD_eq_getElem?_getD]
    rw [List.getElem?_eq_none (by omega)]
    rfl
  rw [this] at h
  exact absurd h (by simp)

/-- After the slot of a live association is overwritten the pointer refers to
the new record. -/
theorem deref_put (st : State) (i : Nat) (p q : P) (h : deref st i = some p) :
    deref { st with assoc := st.assoc.set i (some q) } i = some q := by
  have hlt := deref_lt st i p h
  simp [deref, List.getD_eq_getElem?_getD, List.getElem?_set, hlt]

/-- With a valid key `peer_xmit()` stores the transmit timestamp and sends. -/
theorem peer_xmit_ok (env : Env) (st : State) (i : Nat) (now : Nat) (q : P)
    (hq : deref st i = some q) (hk : q.keyid = 0 ∨ env.nokey q.keyid = false) :
    peer_xmit env st i now =
      some ({ st with assoc := st.assoc.set i (some { q with xmt := now }) }, true) := by
  unfold peer_xmit
  rw [hq]
  have : ¬ (q.keyid ≠ 0 ∧ env.nokey q.keyid = true) := by
    rintro ⟨h1, h2⟩
    rcases hk with hk | hk
    · exact h1 hk
    · rw [hk] at h2; exact absurd h2 (by simp)
  simp only [if_neg this]

/-- With a valid key the end of `poll()` returns, leaves the records `s` and
`c` as they were and stores the association `poll_update()` produces. -/
theorem poll_finish_ok (env : Env) (st : State) (i : Nat) (now : Nat) (send : Bool)
    (post : P → P) (hpoll : Int) (sample : Option Sample) (select : Bool) (q : P)
    (hq : deref st i = some q) (hk : q.keyid = 0 ∨ env.nokey q.keyid = false) :
    ∃ o, poll_finish env st i now send post hpoll sample select = some o ∧
      o.st.c = st.c ∧ o.st.s = st.s ∧ o.sample = sample ∧ o.select = select ∧
      o.st.assoc.length = st.assoc.length ∧
      deref o.st i =
        some (poll_update st.c (post (if send = true then { q with xmt := now } else q)) hpoll) := by
  unfold poll_finish
  cases send with
  | false =>
    simp only [Bool.false_eq_true, if_false, Option.some_bind, hq, Option.map_some']
    exact ⟨_, rfl, rfl, rfl, rfl, rfl, by simp, deref_put st i q _ hq⟩
  | true =>
    simp only [if_true, peer_xmit_ok env st i now q hq hk, Option.some_bind,
      deref_put st i q _ hq, Option.map_some']
    refine ⟨_, rfl, rfl, rfl, rfl, rfl, by simp, ?_⟩
    exact deref_put _ i _ _ (deref_put st i q _ hq)

/-- With valid keys `poll()` returns and leaves the records `s` and `c` as
they were. -/
theorem poll_ok (env : Env) (st : State) (i : Nat) (now : Nat) (p : P)
    (hp : deref st i = some p) (hk : ∀ k, env.nokey k = false) :
    ∃ o, poll env st i now = some o ∧ o.st.c = st.c ∧ o.st.s = st.s := by
  have hfin : ∀ (q : P) (send : Bool) (post : P → P) (hpoll : Int) (sample : Option Sample)
      (select : Bool),
      ∃ o, poll_finish env { st with assoc := st.assoc.set i (some q) } i now send post hpoll
          sample select = some o ∧ o.st.c = st.c ∧ o.st.s = st.s := by
    intro q send post hpoll sample select
    obtain ⟨o, ho, h1, h2, _⟩ := poll_finish_ok env { st with assoc := st.assoc.set i (some q) }
      i now send post hpoll sample select q (deref_put st i p q hp) (Or.inr (hk _))
    exact ⟨o, ho, h1, h2⟩
  unfold poll
  rw [hp]
  simp only []
  split_ifs <;> exact hfin _ _ _ _ _ _

/-- With valid keys the peer timer returns and leaves the records `s` and `c`
as they were. -/
theorem poll_due_ok (env : Env) (now : Nat → Nat) (hk : ∀ k, env.nokey k = false)
    (l : List Nat) :
    ∀ (st : State) (acc : List (Nat × Bool × Option Sample × Bool)),
      ∃ r, poll_due env now l st acc = some r ∧ r.1.c = st.c ∧ r.1.s = st.s := by
  induction l with
  | nil => intro st acc; exact ⟨_, rfl, rfl, rfl⟩
  | cons i rest ih =>
    intro st acc
    unfold poll_due
    cases hd : deref st i with
    | none => exact ih st acc
    | some p =>
      simp only []
      split_ifs
      · obtain ⟨o, ho, h1, h2⟩ := poll_ok env st i (now i) p hd hk
        rw [ho]
        obtain ⟨r, hr, h3, h4⟩ := ih o.st (acc ++ [(i, o.xmit, o.sample, o.select)])
        exact ⟨r, hr, h3.trans h1, h4.trans h2⟩
      · exact ih st acc

/-- C24 (as amended): with valid keys every call of `clock_adjust()` returns
and hands `c.freq + dtemp` to `adjust_time()`, where
`dtemp` = `c.offset / (PLL * min(2^s.poll, ALLAN))`.  When no poll the call
makes starts a clock selection, the call leaves `c.t` advanced by one,
`c.offset` reduced by `dtemp` and `s.rootdisp` increased by PHI, and nothing
else in `c` and `s` changed.  A second call that follows at once does the same
again, from what the first call left: the process time after the second call
is not the one the first call left. -/
theorem clock_adjust_every_call (env : Env) (st : State) (now now2 : Nat → Nat)
    (hk : ∀ k, env.nokey k = false) :
    ∃ o1 o2, clock_adjust env st now = some o1 ∧ clock_adjust env o1.st now2 = some o2 ∧
      o1.adj = st.c.freq +
        st.c.offset / (Dbl.ofInt PLL * dmin (LOG2D st.s.poll) (Dbl.ofInt ALLAN)) ∧
      ((∀ e ∈ o1.polls, e.2.2.2 = false) →
        o1.st.c = { st.c with
          t := (st.c.t + 1) % 18446744073709551616
          offset := st.c.offset -
            st.c.offset / (Dbl.ofInt PLL * dmin (LOG2D st.s.poll) (Dbl.ofInt ALLAN)) } ∧
        o1.st.s = { st.s with rootdisp := st.s.rootdisp + PHI }) ∧
      ((∀ e ∈ o1.polls, e.2.2.2 = false) → (∀ e ∈ o2.polls, e.2.2.2 = false) →
        o2.adj = o1.st.c.freq +
          o1.st.c.offset / (Dbl.ofInt PLL * dmin (LOG2D st.s.poll) (Dbl.ofInt ALLAN)) ∧
        o2.st.c = { o1.st.c with
          t := (o1.st.c.t + 1) % 18446744073709551616
          offset := o1.st.c.offset -
            o1.st.c.offset / (Dbl.ofInt PLL * dmin (LOG2D st.s.poll) (Dbl.ofInt ALLAN)) } ∧
        o2.st.s = { o1.st.s with rootdisp := o1.st.s.rootdisp + PHI } ∧
        o2.st.c.t ≠ o1.st.c.t) := by
  obtain ⟨r1, hr1, c1, s1⟩ := poll_due_ok env now hk (List.range st.assoc.length)
    { st with s := (adjust_tick st.s st.c).1, c := (adjust_tick st.s st.c).2.1 } []
  have e1 : clock_adjust env st now =
      some { st := r1.1, adj := (adjust_tick st.s st.c).2.2, polls := r1.2 } := by
    simp only [clock_adjust, hr1, Option.map_some']
  obtain ⟨r2, hr2, c2, s2⟩ := poll_due_ok env now2 hk (List.range r1.1.assoc.length)
    { r1.1 with s := (adjust_tick r1.1.s r1.1.c).1, c := (adjust_tick r1.1.s r1.1.c).2.1 } []
  have e2 : clock_adjust env r1.1 now2 =
      some { st := r2.1, adj := (adjust_tick r1.1.s r1.1.c).2.2, polls := r2.2 } := by
    simp only [clock_adjust, hr2, Option.map_some']
  have hpoll : r1.1.s.poll = st.s.poll := by rw [s1]; rfl
  refine ⟨_, _, e1, e2, rfl, ?_, ?_⟩
  · intro _
    constructor
    · show r1.1.c = _
      rw [c1]; rfl
    · show r1.1.s = _
      rw [s1]; rfl
  · intro _ _
    refine ⟨?_, ?_, ?_, ?_⟩
    · show (adjust_tick r1.1.s r1.1.c).2.2 = _
      simp only [adjust_tick, hpoll]
    · show r2.1.c = _
      rw [c2]
      show (adjust_tick r1.1.s r1.1.c).2.1 = _
      simp only [adjust_tick, hpoll]
    · show r2.1.s = _
      rw [s2]; rfl
    · show r2.1.c.t ≠ r1.1.c.t
      rw [c2, c1]
      show ((st.c.t + 1) % 18446744073709551616 + 1) % 18446744073709551616 ≠
        (st.c.t + 1) % 18446744073709551616
      omega

/-- C24 (witness): the state `st24p`, whose one association is due at the
first call; its poll hands over no sample and starts no selection. -/
theorem clock_adjust_every_call_witness :
    (clock_adjust env0 st24p (fun _ => 0)).map (fun o => o.polls.map fun e => (e.1, e.2.2.2)) =
      some [(0, false)] ∧
    ∃ o1 o2, clock_adjust env0 st24p (fun _ => 0) = some o1 ∧
      clock_adjust env0 o1.st (fun _ => 0) = some o2 ∧
      o1.adj = st24p.c.freq +
        st24p.c.offset / (Dbl.ofInt PLL * dmin (LOG2D st24p.s.poll) (Dbl.ofInt ALLAN)) ∧
      ((∀ e ∈ o1.polls, e.2.2.2 = false) →
        o1.st.c = { st24p.c with
          t := (st24p.c.t + 1) % 18446744073709551616
          offset := st24p.c.offset -
            st24p.c.offset / (Dbl.ofInt PLL * dmin (LOG2D st24p.s.poll) (Dbl.ofInt ALLAN)) } ∧
        o1.st.s = { st24p.s with rootdisp := st24p.s.rootdisp + PHI }) ∧
      ((∀ e ∈ o1.polls, e.2.2.2 = false) → (∀ e ∈ o2.polls, e.2.2.2 = false) →
        o2.adj = o1.st.c.freq +
          o1.st.c.offset / (Dbl.ofInt PLL * dmin (LOG2D st24p.s.poll) (Dbl.ofInt ALLAN)) ∧
        o2.st.c = { o1.st.c with
          t := (o1.st.c.t + 1) % 18446744073709551616
          offset := o1.st.c.offset -
            o1.st.c.offset / (Dbl.ofInt PLL * dmin (LOG2D st24p.s.poll) (Dbl.ofInt ALLAN)) } ∧
        o2.st.s = { o1.st.s with rootdisp := o1.st.s.rootdisp + PHI } ∧
        o2.st.c.t ≠ o1.st.c.t) :=
  ⟨by decide!,
   clock_adjust_every_call env0 st24p (fun _ => 0) (fun _ => 0) (fun _ => rfl)⟩

/-- C24 (counterexample): from process time 0, clock offset 1 s and root
dispersion 0, one call of `clock_adjust()` leaves `c.t` = 1, `c.offset` =
1 - 2^-22 and `s.rootdisp` = PHI; a second call that follows at once leaves
`c.t` = 2, a smaller `c.offset` and `s.rootdisp` = 2 * PHI. -/
theorem clock_adjust_not_idempotent :
    (clock_adjust env0 st24 (fun _ => 0)).map
        (fun o => (o.st.c.t, o.st.c.offset, o.st.s.rootdisp)) =
      some (1, Dbl.fin (4194303 / 4194304), Dbl.fin (15 / 1000000)) ∧
    ((clock_adjust env0 st24 (fun _ => 0)).bind fun o => clock_adjust env0 o.st (fun _ => 0)).map
        (fun o => (o.st.c.t, o.st.c.offset, o.st.s.rootdisp)) =
      some (2, Dbl.fin (4194303 / 4194304 * (4194303 / 4194304)), Dbl.fin (30 / 1000000)) := by
  decide!

/-- The poll update writes `hpoll` and `nextdate` only: the reach register
and the key identifier stay. -/
theorem poll_update_reach (c : C) (p : P) (poll : Int) :
    (poll_update c p poll).reach = p.reach ∧ (poll_update c p poll).keyid = p.keyid := by
  simp only [poll_update]
  split_ifs <;> exact ⟨rfl, rfl⟩

/-- The statements of `poll()` after the dead-sample test keep the reach
register and the key identifier. -/
theorem poll_reach_frame (s : S) (c : C) (p : P) (hpoll : Int) :
    (poll_reach s c p hpoll).1.reach = p.reach ∧ (poll_reach s c p hpoll).1.keyid = p.keyid := by
  simp only [poll_reach]
  split_ifs <;> exact ⟨rfl, rfl⟩

/-- The clock filter keeps the reach register and the key identifier. -/
theorem clock_filter_keyid (env : Env) (s : S) (c : C) (p : P) (o d e : Dbl) :
    (clock_filter env s c p o d e).1.reach = p.reach ∧
      (clock_filter env s c p o d e).1.keyid = p.keyid := by
  simp only [clock_filter]
  split_ifs <;> exact ⟨rfl, rfl⟩

/-- A value in the range of a 32-bit `int` is stored as it is. -/
theorem toI32_of_range (x : Int) (h0 : -2147483648 ≤ x) (h1 : x < 2147483648) : toI32 x = x := by
  unfold toI32
  omega

/-- C25 (as amended): for every reach value r in 0..255, a non-burst `poll()`
of an association that is neither in broadcast mode nor a manycast client,
with a valid key, returns; it hands the dead sample (0, 0, MAXDISP) to
`clock_filter()` exactly when the three low-order bits of 2 * r are zero, a
clock selection is started on the dead sample only, and when none is started
the reach register afterwards is 2 * r (no bit is masked off). -/
theorem poll_doubles_reach (env : Env) (st : State) (i : Nat) (now : Nat) (p : P)
    (hp : deref st i = some p) (hb : p.hmode ≠ M_BCST)
    (hm : ¬ (p.hmode = M_CLNT ∧ p.flags &&& P_MANY ≠ 0)) (h0 : p.burst = 0)
    (hk : p.keyid = 0 ∨ env.nokey p.keyid = false)
    (hr : 0 ≤ p.reach ∧ p.reach ≤ 255) :
    ∃ o, poll env st i now = some o ∧
      (o.sample = some { offset := Dbl.fin 0, delay := Dbl.fin 0, disp := Dbl.ofInt MAXDISP } ↔
        iand7 (2 * p.reach) = 0) ∧
      (o.sample = none ↔ iand7 (2 * p.reach) ≠ 0) ∧
      (o.select = true → o.sample ≠ none) ∧
      (o.select = false → (deref o.st i).map P.reach = some (2 * p.reach)) := by
  have hsh : toI32 (p.reach * 2) = 2 * p.reach := by
    rw [toI32_of_range _ (by omega) (by omega)]
    ring
  unfold poll
  rw [hp]
  simp only [if_neg hb, if_neg hm, if_pos h0]
  rw [hsh]
  by_cases hd : iand7 (2 * p.reach) = 0
  · simp only [hd, if_true]
    obtain ⟨o, ho, _, _, hs, _, _, hq⟩ := poll_finish_ok env
      { st with assoc := st.assoc.set i (some (poll_reach st.s st.c
          (clock_filter env st.s st.c
            { p with outdate := toI32 (st.c.t : Int), reach := 2 * p.reach }
            (Dbl.fin 0) (Dbl.fin 0) (Dbl.ofInt MAXDISP)).1 p.hpoll).1) }
      i now (p.hmode != M_BCLN) id
      (poll_reach st.s st.c
          (clock_filter env st.s st.c
            { p with outdate := toI32 (st.c.t : Int), reach := 2 * p.reach }
            (Dbl.fin 0) (Dbl.fin 0) (Dbl.ofInt MAXDISP)).1 p.hpoll).2
      (some { offset := Dbl.fin 0, delay := Dbl.fin 0, disp := Dbl.ofInt MAXDISP })
      (clock_filter env st.s st.c
            { p with outdate := toI32 (st.c.t : Int), reach := 2 * p.reach }
            (Dbl.fin 0) (Dbl.fin 0) (Dbl.ofInt MAXDISP)).2
      _ (deref_put st i p _ hp)
      (by rw [(poll_reach_frame _ _ _ _).2, (clock_filter_keyid _ _ _ _ _ _ _).2]; exact hk)
    refine ⟨o, ho, ?_, ?_, ?_, ?_⟩
    · rw [hs]; simp
    · rw [hs]; simp
    · intro _
      rw [hs]; simp
    · intro _
      rw [hq, Option.map_some', (poll_update_reach _ _ _).1]
      split_ifs <;>
        simp only [id, (poll_reach_frame _ _ _ _).1, (clock_filter_keyid _ _ _ _ _ _ _).1]
  · simp only [hd, if_false]
    obtain ⟨o, ho, _, _, hs, hsel, _, hq⟩ := poll_finish_ok env
      { st with assoc := st.assoc.set i (some (poll_reach st.s st.c
          { p with outdate := toI32 (st.c.t : Int), reach := 2 * p.reach } p.hpoll).1) }
      i now (p.hmode != M_BCLN) id
      (poll_reach st.s st.c
        { p with outdate := toI32 (st.c.t : Int), reach := 2 * p.reach } p.hpoll).2
      none false
      _ (deref_put st i p _ hp)
      (by rw [(poll_reach_frame _ _ _ _).2]; exact hk)
    refine ⟨o, ho, ?_, ?_, ?_, ?_⟩
    · rw [hs]; simp [hd]
    · rw [hs]; simp [hd]
    · intro h
      rw [hsel] at h
      exact absurd h (by simp)
    · intro _
      rw [hq, Option.map_some', (poll_update_reach _ _ _).1]
      split_ifs <;> simp only [id, (poll_reach_frame _ _ _ _).1]

/-- C25 (witness): a client association with reach 0b11111111; the poll hands
over no sample and starts no selection. -/
theorem poll_doubles_reach_witness :
    (0 ≤ pR.reach ∧ pR.reach ≤ 255) ∧
    ∃ o, poll env0 stR 0 7 = some o ∧
      (o.sample = some { offset := Dbl.fin 0, delay := Dbl.fin 0, disp := Dbl.ofInt MAXDISP } ↔
        iand7 (2 * pR.reach) = 0) ∧
      (o.sample = none ↔ iand7 (2 * pR.reach) ≠ 0) ∧
      (o.select = true → o.sample ≠ none) ∧
      (o.select = false → (deref o.st 0).map P.reach = some (2 * pR.reach)) :=
  ⟨by decide,
   poll_doubles_reach env0 stR 0 7 pR rfl (by decide) (by decide) rfl (Or.inl rfl) (by decide)⟩

/-- C25 (counterexample): a poll of a client association with reach
0b11111111 hands over no sample, starts no selection and leaves reach = 510 =
0b111111110, not 0b11111110 = 254: the register leaves the range 0..255.  A
second poll leaves 1020. -/
theorem poll_reach_not_masked :
    pR.reach = 255 ∧ pR.burst = 0 ∧
    (poll env0 stR 0 7).map (fun o => (o.sample, o.select)) = some (none, false) ∧
    ((poll env0 stR 0 7).bind fun o => deref o.st 0).map P.reach = some 510 ∧
    (((poll env0 stR 0 7).bind fun o => poll env0 o.st 0 8).bind fun o => deref o.st 0).map P.reach =
      some 1020 ∧
    (2 * 255) % 256 = 254 := by
  decide!

/-! ## Poll update -/

/-- The clamp `max(min(MAXPOLL, poll), MINPOLL)` of `poll_update()` is the
clamp of the specification. -/
theorem imax_imin_clamp (poll : Int) :
    imax (imin MAXPOLL poll) MINPOLL = spec_clamp poll MINPOLL MAXPOLL := by
  simp only [imax, imin, spec_clamp, MINPOLL, MAXPOLL, max_def, min_def]
  split_ifs <;> omega

/-- Where the process time and the last poll time leave room in the `int`
(`c.t` + 1 and `outdate` + 2^17 below 2^31, `outdate` not negative),
`poll_update(p, poll)` with `burst` = 0 leaves
`hpoll` = clamp(poll, MINPOLL, MAXPOLL) and
`nextdate` = max(outdate + 2^clamp(min(ppoll, hpoll), MINPOLL, MAXPOLL),
c.t + 1), which is greater than `c.t`. -/
theorem poll_update_nextdate_in_range (c : C) (p : P) (poll : Int) (hb : p.burst = 0)
    (h0 : 0 ≤ p.outdate) (h1 : p.outdate + 131072 < 2147483648)
    (hc : (c.t : Int) + 1 < 2147483648) :
    (poll_update c p poll).hpoll = spec_clamp poll MINPOLL MAXPOLL ∧
    (poll_update c p poll).nextdate =
      max (p.outdate +
          2 ^ (spec_clamp (min p.ppoll (spec_clamp poll MINPOLL MAXPOLL)) MINPOLL MAXPOLL).toNat)
        ((c.t : Int) + 1) ∧
    (poll_update c p poll).nextdate > (c.t : Int) := by
  have hh : 6 ≤ spec_clamp poll MINPOLL MAXPOLL ∧ spec_clamp poll MINPOLL MAXPOLL ≤ 17 := by
    simp only [spec_clamp, MINPOLL, MAXPOLL]
    omega
  have hk : imax (imin p.ppoll (imax (imin MAXPOLL poll) MINPOLL)) MINPOLL =
      spec_clamp (min p.ppoll (spec_clamp poll MINPOLL MAXPOLL)) MINPOLL MAXPOLL := by
    rw [imax_imin_clamp]
    generalize spec_clamp poll MINPOLL MAXPOLL = h at hh
    simp only [imax, imin, spec_clamp, MINPOLL, MAXPOLL]
    split_ifs <;> omega
  have hk6 : 6 ≤ spec_clamp (min p.ppoll (spec_clamp poll MINPOLL MAXPOLL)) MINPOLL MAXPOLL ∧
      spec_clamp (min p.ppoll (spec_clamp poll MINPOLL MAXPOLL)) MINPOLL MAXPOLL ≤ 17 := by
    generalize spec_clamp poll MINPOLL MAXPOLL = h at hh
    simp only [spec_clamp, MINPOLL, MAXPOLL]
    omega
  generalize spec_clamp (min p.ppoll (spec_clamp poll MINPOLL MAXPOLL)) MINPOLL MAXPOLL = k
    at hk hk6
  have hsh : ((1 <<< k.toNat : Nat) : Int) = 2 ^ k.toNat := by
    rw [Nat.shiftLeft_eq, Nat.one_mul]
    push_cast
    rfl
  have hlo : (2 : Int) ^ 6 ≤ 2 ^ k.toNat :=
    pow_le_pow_right₀ (by norm_num) (by omega)
  have hhi : (2 : Int) ^ k.toNat ≤ 2 ^ 17 :=
    pow_le_pow_right₀ (by norm_num) (by omega)
  generalize (2 : Int) ^ k.toNat = w at hsh hlo hhi
  have hw : toI32 (p.outdate + w) = p.outdate + w :=
    toI32_of_range _ (by omega) (by omega)
  have ht : toI32 ((c.t : Int) + 1) = (c.t : Int) + 1 :=
    toI32_of_range _ (by omega) (by omega)
  have hu : toU64 (p.outdate + w) = (p.outdate + w).toNat := by
    unfold toU64
    rw [Int.emod_eq_of_lt (by omega) (by omega)]
  have hb0 : ¬ p.burst > 0 := by rw [hb]; decide
  simp only [poll_update, if_neg hb0, hk, hsh, hw, ht, hu]
  split_ifs with h
  · refine ⟨imax_imin_clamp poll, ?_, ?_⟩
    · show (c.t : Int) + 1 = _
      rw [max_def]
      split_ifs <;> omega
    · show (c.t : Int) + 1 > _
      omega
  · refine ⟨imax_imin_clamp poll, ?_, ?_⟩
    · show p.outdate + w = _
      rw [max_def]
      split_ifs <;> omega
    · show p.outdate + w > _
      omega

/-- C26 (the code at the failing input): at process time 2^31 - 1 an
association with `burst` = 0, `ppoll` = 6 and last poll time
`outdate` = 2^31 - 65 has its poll time `outdate` + 64 due, and
`poll_update(p, 6)` assigns `c.t + 1` = 2^31 to the `int` `nextdate`, which
holds -2^31: not max(outdate + 64, c.t + 1) = 2^31 and not greater than
`c.t`. -/
theorem poll_update_wraps_nextdate :
    p26.burst = 0 ∧ 0 ≤ p26.outdate ∧ (poll_update c26 p26 6).hpoll = 6 ∧
    (poll_update c26 p26 6).nextdate = -2147483648 ∧
    max (p26.outdate +
        (2 : Int) ^ (spec_clamp (min p26.ppoll (spec_clamp 6 MINPOLL MAXPOLL)) MINPOLL MAXPOLL).toNat)
      ((c26.t : Int) + 1) = 2147483648 ∧
    ¬ (poll_update c26 p26 6).nextdate > (c26.t : Int) := by
  decide!

/-! ## Clock filter: shift register, best sample, dispersion -/

/-- The shift loop of `clock_filter()` on eight stages: it runs from stage 1
upwards, so every stage receives the contents of stage 0, with the
dispersion increment added once for each stage passed. -/
theorem filterShift_eight (inc : Dbl) (a0 a1 a2 a3 a4 a5 a6 a7 : F) :
    filterShift inc [a0, a1, a2, a3, a4, a5, a6, a7] =
      [a0,
       { a0 with disp := a0.disp + inc },
       { a0 with disp := a0.disp + inc + inc },
       { a0 with disp := a0.disp + inc + inc + inc },
       { a0 with disp := a0.disp + inc + inc + inc + inc },
       { a0 with disp := a0.disp + inc + inc + inc + inc + inc },
       { a0 with disp := a0.disp + inc + inc + inc + inc + inc + inc },
       { a0 with disp := a0.disp + inc + inc + inc + inc + inc + inc + inc }] := by
  have h : List.range' 1 (NSTAGE - 1) = [1, 2, 3, 4, 5, 6, 7] := by decide
  simp only [filterShift, h, List.foldl, shiftStage]
  rfl

/-- C27 (evaluation of the code at the failing input): with stage `k` holding
(k, k, k, k) for `k` = 0..7, `p.t` = 0 and `c.t` = 10, the call
`clock_filter(p, 9, 9, 9)` leaves (10, 9, 9, 9) in stage 0 and, in every stage
`i` from 1 to 7, the time, offset and delay 0 of the old stage 0 with
dispersion `i` * PHI * 10; stage 2 does not hold the offset 1 of the old
stage 1. -/
theorem clock_filter_propagates_stage0 :
    (clock_filter env0 s0 c27 p27 (Dbl.fin 9) (Dbl.fin 9) (Dbl.fin 9)).1.f =
      { t := 10, offset := Dbl.fin 9, delay := Dbl.fin 9, disp := Dbl.fin 9 } ::
        (List.range 7).map (fun i =>
          { t := 0, offset := Dbl.fin 0, delay := Dbl.fin 0,
            disp := Dbl.fin ((i + 1 : ℚ) * (15 / 1000000) * 10) }) ∧
    (p27.f.getD 1 default).offset = Dbl.fin 1 ∧
    ((clock_filter env0 s0 c27 p27 (Dbl.fin 9) (Dbl.fin 9) (Dbl.fin 9)).1.f.getD 2 default).offset =
      Dbl.fin 0 := by
  decide!

/-- C28 (evaluation of the code at the failing input): with every stage
holding offset 1 ms and delay 10 ms, the call `clock_filter(p, 0.5, 0.5, 0)`
leaves `p.offset` = 0.5 and `p.delay` = 0.5, the newest sample, although the
stages 1 to 7 hold the smaller delay 10 ms with offset 1 ms. -/
theorem clock_filter_takes_newest :
    ((clock_filter env0 s0 c0 p28 (Dbl.fin (1 / 2)) (Dbl.fin (1 / 2)) (Dbl.fin 0)).1.offset,
     (clock_filter env0 s0 c0 p28 (Dbl.fin (1 / 2)) (Dbl.fin (1 / 2)) (Dbl.fin 0)).1.delay) =
      (Dbl.fin (1 / 2), Dbl.fin (1 / 2)) ∧
    (clock_filter env0 s0 c0 p28 (Dbl.fin (1 / 2)) (Dbl.fin (1 / 2)) (Dbl.fin 0)).1.f.map
        (fun e => (e.offset, e.delay)) =
      (Dbl.fin (1 / 2), Dbl.fin (1 / 2)) ::
        List.replicate 7 (Dbl.fin (1 / 1000), Dbl.fin (1 / 100)) := by
  decide!

/-- C29 (evaluation of the code at the failing input): with all eight stages
holding dispersion 1 after the call and `p.disp` = 0 before it, the code adds
1 / (2 xor 1) = 1/3 and then 1 / (2 xor 2) = 1/0, so `p.disp` is +inf; the
geometric sum is 255/256.  The divisors `2 ^ (i + 1)` of the code are
3, 0, 1, 6, 7, 4, 5, 10. -/
theorem clock_filter_disp_xor :
    (clock_filter env0 s0 c0 p29 (Dbl.fin 0) (Dbl.fin 0) (Dbl.fin 1)).1.f.map F.disp =
      List.replicate 8 (Dbl.fin 1) ∧
    (clock_filter env0 s0 c0 p29 (Dbl.fin 0) (Dbl.fin 0) (Dbl.fin 1)).1.disp = Dbl.pinf ∧
    spec_filter_disp (clock_filter env0 s0 c0 p29 (Dbl.fin 0) (Dbl.fin 0) (Dbl.fin 1)).1.f =
      Dbl.fin (255 / 256) ∧
    (List.range NSTAGE).map (fun i => 2 ^^^ (i + 1)) = [3, 0, 1, 6, 7, 4, 5, 10] := by
  decide!

/-! ## Cluster loop -/

/-- C30 (evaluation of the code at the failing input): entered with `n` = 6
chime entries, three survivors and the survivor array `v30`, the cluster loop
leaves no survivor: the test `n <= NMIN` is on the number of chime entries.
In `clock_select()` on the state `st30` the survivor loop counts four
survivors and the call returns with `s.n` = 0. -/
theorem cluster_loop_below_floor :
    cluster_loop env0 assoc30 v30 6 3 = some 0 ∧
    (clock_select_survivors st30 [0, 1]).map (fun a => (a.n, a.s.n)) = some (6, 4) ∧
    (clock_select env0 st30 [0, 1] 0).map (fun o => o.st.s.n) = some 0 := by
  decide!

/-! ## Cluster loop: the survivor discarded -/

/-- C31 (evaluation of the code at the failing input): with `n` = 6 chime
entries and the three survivors `s.v[0..2]` of offsets 1, 0, 0, the first
round of the cluster loop finds `max` = 2 and `min` = 2^-18 and does `s.n--`,
the second finds `min` = 5 and stops: the survivor discarded is `s.v[2]`,
whose selection jitter is 1, and `s.v[0]`, whose selection jitter sqrt(2) is
the largest, stays. -/
theorem cluster_loop_drops_last :
    cluster_scan env0 assoc31 v31 6 (List.range 3) (Dbl.fin (-2000000000)) (Dbl.fin 2000000000) =
      some (Dbl.fin 2, Dbl.fin (1 / 262144)) ∧
    cluster_scan env0 assoc31 v31 6 (List.range 2) (Dbl.fin (-2000000000)) (Dbl.fin 2000000000) =
      some (Dbl.fin 2, Dbl.fin 5) ∧
    cluster_loop env0 assoc31 v31 6 3 = some 2 ∧
    spec_sjitter env0 assoc31 v31 3 0 = some (Dbl.fin (sq32 2)) ∧
    spec_sjitter env0 assoc31 v31 3 1 = some (Dbl.fin 1) ∧
    spec_sjitter env0 assoc31 v31 3 2 = some (Dbl.fin 1) ∧
    Dbl.gt (Dbl.fin (sq32 2)) (Dbl.fin 1) = true := by
  decide!

/-! ## Clock combine: system jitter -/

/-- C32 (evaluation of the code at the failing input): with the single
survivor of offset 1 the text `SQUARE(p->offset - s.v[0].p->offset)` is
`1 - 1 * 1 - 1` = -1, the sum `w` is negative and `s.jitter` is
sqrt of -1, NaN; the weighted root of the true squares is 0. -/
theorem clock_combine_jitter_nan :
    SQUARE_diff (Dbl.fin 1) (Dbl.fin 1) = Dbl.fin (-1) ∧
    (clock_combine env0 c0 [some (pS 1)] s32).map (fun a => (a.offset, a.jitter)) =
      some (Dbl.fin 1, Dbl.nan) ∧
    spec_combine_jitter env0 c0 [some (pS 1)] s32 = Dbl.fin 0 := by
  decide!

/-! ## Clock discipline: what a transition records -/

/-- An in-range sample in state NSET, FSET, SYNC or SPIK leaves
`c.offset` = `c.last` = `p.t` and `s.t` = the offset cut to a whole number:
`rstclock(state, offset, t)` is called as `rstclock(state, p->t, offset)`. -/
theorem local_clock_records_swapped (env : Env) (s : S) (c : C) (p : P) (offset : Dbl)
    (state0 : Int) (o : ClockOut) (hc : c.state ≠ FREQ)
    (h1 : Dbl.gt (Dbl.fabs offset) STEPT = false)
    (h : local_clock env s c p offset state0 = some o) :
    o.c.offset = p.t ∧ o.c.last = p.t ∧ toTstamp offset = some o.s.t := by
  have hp : Dbl.gt (Dbl.fabs offset) (Dbl.ofInt PANICT) = false := by
    cases offset <;> simp_all [Dbl.gt, Dbl.fabs, Dbl.lt, STEPT, PANICT, Dbl.ofInt]
    linarith
  unfold local_clock at h
  simp only [hp, h1, Bool.false_eq_true, if_false, if_neg hc, rstclock] at h
  cases ht : toTstamp offset with
  | none => simp [ht] at h
  | some ts =>
    simp only [ht, Option.map_some'] at h
    split_ifs at h
    all_goals
      simp only [Option.some.injEq] at h
      rw [← h]
      first
        | exact ⟨rfl, rfl, rfl⟩
        | (simp only [local_clock_tail, poll_adjust]
           split_ifs <;> exact ⟨rfl, rfl, rfl⟩)

/-- C33 (evaluation of the code at the failing input): in state NSET a sample
of offset 1 ms with `p.t` = 60 takes the discipline to FREQ and leaves
`c.offset` = `c.last` = 60 and `s.t` = 0, not `c.offset` = `c.last` = 0.001
and `s.t` = 60. -/
theorem local_clock_transition_swapped :
    c33.state = NSET ∧
    (local_clock env0 s0 c33 p33 (Dbl.fin (1 / 1000)) 0).map
        (fun o => (o.rval, o.c.state, o.c.offset, o.c.last, o.s.t)) =
      some (IGNORE, FREQ, Dbl.fin 60, Dbl.fin 60, 0) := by
  decide!

/-- C34 (evaluation of the code at the failing input): with `c.state` = NSET
and an offset of 0.5 s the outcome follows the value the local variable
`state` happens to hold.  When that is NSET (0) the clock is stepped, the state
is FREQ and the poll-adjust code is not run (`c.count` = 0); when it is 1 the
clock is stepped, the state is SYNC and the poll-adjust code has run
(`c.count` = -12).  With `c.state` = FSET and the local value NSET the state
becomes FREQ. -/
theorem local_clock_step_reads_local :
    (local_clock env0 s0 c0 p0 (Dbl.fin (1 / 2)) 0).map
        (fun o => (o.rval, o.steps, o.c.state, o.c.count)) =
      some (STEP, [Dbl.fin (1 / 2)], FREQ, 0) ∧
    (local_clock env0 s0 c0 p0 (Dbl.fin (1 / 2)) 1).map
        (fun o => (o.rval, o.steps, o.c.state, o.c.count)) =
      some (STEP, [Dbl.fin (1 / 2)], SYNC, -12) ∧
    (local_clock env0 s0 cFset p0 (Dbl.fin (1 / 2)) 0).map
        (fun o => (o.rval, o.steps, o.c.state, o.c.count)) =
      some (STEP, [Dbl.fin (1 / 2)], FREQ, 0) ∧
    c0.state = NSET ∧ cFset.state = FSET := by
  decide!

/-! ## Clock selection: array bounds and the absent system peer -/

/-- C35 (evaluation of the code at the failing input): the arrays `s.m` and
`s.v` are declared with `NMAX` = 50 entries.  With sixteen fit associations
the chime loop writes the entries 0..47; with seventeen it writes `s.m[50]`,
outside the array, so `clock_select()` is undefined. -/
theorem clock_select_chime_overflow :
    fit sSel c0 (pS 0) = true ∧ st35.assoc.length = 17 ∧ sSel.m.length = NMAX ∧
    (chime_loop sSel c0 st35.assoc (List.range 16) sSel.m 0).map (fun a => a.2) = some 48 ∧
    arrSet sSel.m 50 ({ p := some 16, type := -1, edge := Dbl.fin 0 } : M) = none ∧
    chime_loop sSel c0 st35.assoc (List.range 17) sSel.m 0 = none ∧
    clock_select env0 st35 (List.range 17) 0 = none := by
  decide!

/-! ## Clock filter: the divisor of the dispersion sum -/

/-- In the second pass (`i` = 1) of the loop of `clock_filter()` the divisor
`2 ^ (i + 1)` is 2 xor 2 = 0. -/
theorem filterAccum_stage1 (f : List F) (acc : Dbl × Dbl) :
    (filterAccum f acc 1).1 = acc.1 + (f.getD 1 default).disp / Dbl.fin 0 := by
  simp [filterAccum, Dbl.ofNat]

/-- C36 (evaluation of the code at the failing input): the divisor the code
applies to stage 1 is 2 xor 2 = 0.  For the association `mobilize()` sets up,
whose stages hold dispersion 16, the first valid packet leaves
`p.disp` = +inf. -/
theorem clock_filter_divides_by_zero :
    2 ^^^ (1 + 1) = 0 ∧ pClr.f.map F.disp = List.replicate 8 (Dbl.fin 16) ∧
    pClr.disp = Dbl.fin 16 ∧ p10.disp = Dbl.pinf := by
  decide!

/-! ## Clock selection without a previous system peer -/

/-- Without a previous system peer the choice of the system peer reads
`osys->stratum` through a null pointer. -/
theorem system_peer_null (assoc : List (Option P)) (s : S) : system_peer assoc s none = none := by
  simp [system_peer]

/-- C37 (evaluation of the code at the failing input): with `s.p` null on
entry, one fit association and two survivors counted, `clock_select()` reaches
`if (osys->stratum == s.v[0].p->stratum)` with `osys` null and is undefined;
it does not return with `s.v[0].p` as system peer. -/
theorem clock_select_null_osys :
    st37.s.p = none ∧
    (clock_select_survivors st37 [0, 1]).map (fun a => (a.s.n, (a.s.v.getD 0 default).p)) =
      some (2, some 0) ∧
    ((clock_select_survivors st37 [0, 1]).bind fun a =>
        cluster_loop env0 st37.assoc a.s.v a.n a.s.n.toNat) = some 2 ∧
    ((clock_select_survivors st37 [0, 1]).bind fun a => system_peer st37.assoc a.s st37.s.p) =
      none ∧
    clock_select env0 st37 [0, 1] 0 = none := by
  decide!

/-! ## Clock update: the interval handed to the discipline -/

/-- C38 (evaluation of the code at the failing input): with `s.t` = 0 and
`p.t` = 60, `clock_update()` stores 60 in `s.t` before it calls
`local_clock()`, so the interval `mu = p->t - s.t` is 0.  In state FREQ, after
the stepout interval, the frequency estimate (0.001 - 0) / 0 is +inf: `c.freq`
is clamped to MAXFREQ and `c.wander` is +inf. -/
theorem clock_update_mu_zero :
    st38.s.t = 0 ∧ (deref st38 0).map P.t = some (Dbl.fin 60) ∧
    toTstamp (Dbl.fin 60) = some 60 ∧ Dbl.fin 60 - Dbl.ofNat 60 = Dbl.fin 0 ∧
    (Dbl.fin (1 / 1000) - Dbl.fin 0) / Dbl.fin 0 = Dbl.pinf ∧
    (clock_update env0 st38 0 0).map
        (fun o => (o.st.s.t, o.st.s.offset, o.st.c.state, o.st.c.freq, o.st.c.wander)) =
      some (60, Dbl.fin (1 / 1000), FREQ, MAXFREQ, Dbl.pinf) := by
  decide!

/-! ## Cluster loop: termination -/

/-- With no survivor left a round of the cluster loop stops: the inner loops
do not run, `max` = -2e9 and `min` = 2e9. -/
theorem cluster_round_zero (env : Env) (assoc : List (Option P)) (v : List V) (n : Nat)
    (sn : Int) (h : sn ≤ 0) : cluster_round env assoc v n sn = some none := by
  have h0 : sn.toNat = 0 := by omega
  have hlt : Dbl.lt (Dbl.fin (-2000000000)) (Dbl.fin 2000000000) = true := by
    simp [Dbl.lt]
  simp [cluster_round, h0, cluster_scan, hlt]

/-- A round of the cluster loop is undefined, stops, or leaves `s.n - 1`. -/
theorem cluster_round_cases (env : Env) (assoc : List (Option P)) (v : List V) (n : Nat)
    (sn : Int) :
    cluster_round env assoc v n sn = none ∨ cluster_round env assoc v n sn = some none ∨
      cluster_round env assoc v n sn = some (some (sn - 1)) := by
  unfold cluster_round
  cases cluster_scan env assoc v n (List.range sn.toNat) (Dbl.fin (-2000000000))
      (Dbl.fin 2000000000) with
  | none => exact Or.inl rfl
  | some a =>
    obtain ⟨mx, mn⟩ := a
    simp only []
    split_ifs
    · exact Or.inr (Or.inl rfl)
    · exact Or.inr (Or.inr rfl)

/-- With more rounds allowed than there are survivors the cluster loop ends
(or is undefined), with a survivor count not above the one it started from. -/
theorem cluster_while_ends (env : Env) (assoc : List (Option P)) (v : List V) (n : Nat) :
    ∀ (fuel : Nat) (sn : Int), sn.toNat < fuel →
      cluster_while env assoc v n fuel sn = none ∨
        ∃ k, cluster_while env assoc v n fuel sn = some (some k) ∧ k ≤ sn := by
  intro fuel
  induction fuel with
  | zero => intro sn h; exact absurd h (by omega)
  | succ f ih =>
    intro sn h
    unfold cluster_while
    rcases cluster_round_cases env assoc v n sn with hr | hr | hr
    · rw [hr]; exact Or.inl rfl
    · rw [hr]; exact Or.inr ⟨sn, rfl, le_refl _⟩
    · by_cases hpos : sn ≤ 0
      · rw [cluster_round_zero env assoc v n sn hpos]
        exact Or.inr ⟨sn, rfl, le_refl _⟩
      · rw [hr]
        rcases ih (sn - 1) (by omega) with h1 | ⟨k, h1, h2⟩
        · exact Or.inl h1
        · exact Or.inr ⟨k, h1, by omega⟩

/-- The loop run with fuel is the cluster loop `clock_select()` uses. -/
theorem cluster_while_eq_loop (env : Env) (assoc : List (Option P)) (v : List V) (n : Nat) :
    ∀ k : Nat, cluster_while env assoc v n (k + 1) (k : Int) =
      (cluster_loop env assoc v n k).map (fun (r : Nat) => some (r : Int)) := by
  intro k
  induction k with
  | zero =>
    unfold cluster_while
    rw [cluster_round_zero env assoc v n ((0 : Nat) : Int) (by simp)]
    rfl
  | succ k ih =>
    unfold cluster_while cluster_loop cluster_round
    have e : ((k + 1 : Nat) : Int).toNat = k + 1 := by omega
    rw [e]
    cases cluster_scan env assoc v n (List.range (k + 1)) (Dbl.fin (-2000000000))
        (Dbl.fin 2000000000) with
    | none => rfl
    | some a =>
      obtain ⟨mx, mn⟩ := a
      simp only []
      split_ifs
      · rfl
      · have e2 : ((k + 1 : Nat) : Int) - 1 = (k : Int) := by omega
        simp only [e2]
        exact ih

/-- The inner loop of the cluster loop is defined when the survivor entries
it reads point to associations. -/
theorem sel_jitter_sum_defined (assoc : List (Option P)) (v : List V) (p : P) :
    ∀ (l : List Nat) (dtemp : Dbl), (∀ j ∈ l, (survivor assoc v j).isSome = true) →
      (sel_jitter_sum assoc v p l dtemp).isSome = true := by
  intro l
  induction l with
  | nil => intro dtemp _; rfl
  | cons j l ih =>
    intro dtemp h
    unfold sel_jitter_sum
    obtain ⟨q, hq⟩ := Option.isSome_iff_exists.mp (h j (List.mem_cons_self j l))
    rw [hq]
    exact ih _ fun k hk => h k (List.mem_cons_of_mem j hk)

/-- The scan of a round of the cluster loop is defined when the survivor
entries it reads point to associations. -/
theorem cluster_scan_defined (env : Env) (assoc : List (Option P)) (v : List V) (n : Nat)
    (hn : ∀ j ∈ List.range n, (survivor assoc v j).isSome = true) :
    ∀ (l : List Nat) (mx mn : Dbl), (∀ i ∈ l, (survivor assoc v i).isSome = true) →
      (cluster_scan env assoc v n l mx mn).isSome = true := by
  intro l
  induction l with
  | nil => intro mx mn _; rfl
  | cons i l ih =>
    intro mx mn h
    unfold cluster_scan
    obtain ⟨p, hp⟩ := Option.isSome_iff_exists.mp (h i (List.mem_cons_self i l))
    obtain ⟨d, hd⟩ := Option.isSome_iff_exists.mp
      (sel_jitter_sum_defined assoc v p (List.range n) (Dbl.fin 0) hn)
    rw [hp]
    simp only [hd]
    exact ih _ _ fun k hk => h k (List.mem_cons_of_mem i hk)

/-- A round of the cluster loop whose survivor entries point to associations
stops or leaves `s.n - 1`. -/
theorem cluster_round_defined (env : Env) (assoc : List (Option P)) (v : List V) (n : Nat)
    (sn : Int)
    (hv : ∀ i : Nat, (i : Int) < max sn (n : Int) → (survivor assoc v i).isSome = true) :
    cluster_round env assoc v n sn = some none ∨
      cluster_round env assoc v n sn = some (some (sn - 1)) := by
  have h := cluster_scan_defined env assoc v n
    (fun j hj => hv j (by have := List.mem_range.mp hj; omega))
    (List.range sn.toNat) (Dbl.fin (-2000000000)) (Dbl.fin 2000000000)
    (fun i hi => hv i (by have := List.mem_range.mp hi; omega))
  obtain ⟨a, ha⟩ := Option.isSome_iff_exists.mp h
  obtain ⟨mx, mn⟩ := a
  unfold cluster_round
  rw [ha]
  simp only []
  split_ifs
  · exact Or.inl rfl
  · exact Or.inr rfl

/-- With more rounds allowed than there are survivors, and survivor entries
that point to associations, the cluster loop ends with a survivor count
between 0 and the one it started from. -/
theorem cluster_while_result (env : Env) (assoc : List (Option P)) (v : List V) (n : Nat) :
    ∀ (fuel : Nat) (sn : Int), sn.toNat < fuel →
      (∀ i : Nat, (i : Int) < max sn (n : Int) → (survivor assoc v i).isSome = true) →
      ∃ k, cluster_while env assoc v n fuel sn = some (some k) ∧ k ≤ sn ∧ min sn 0 ≤ k := by
  intro fuel
  induction fuel with
  | zero => intro sn h _; exact absurd h (by omega)
  | succ f ih =>
    intro sn h hv
    unfold cluster_while
    by_cases hpos : sn ≤ 0
    · rw [cluster_round_zero env assoc v n sn hpos]
      exact ⟨sn, rfl, le_refl _, min_le_left _ _⟩
    · rcases cluster_round_defined env assoc v n sn hv with hr | hr
      · rw [hr]
        exact ⟨sn, rfl, le_refl _, min_le_left _ _⟩
      · rw [hr]
        obtain ⟨k, h1, h2, h3⟩ := ih (sn - 1) (by omega)
          (fun i hi => hv i (by omega))
        exact ⟨k, h1, by omega, by omega⟩

/-- C39: for every survivor array, every assignment of offsets and jitters
and every survivor count `s.n`, a round of the cluster loop stops or leaves
`s.n - 1` (or is undefined, when it reads a null survivor pointer); a round
entered with `s.n` = 0 or less stops; the loop, allowed one round more than
there are survivors, never uses up its rounds; and when the survivor entries it
reads point to associations it ends with a survivor count between 0 and the
one it started from. -/
theorem cluster_loop_terminates (env : Env) (assoc : List (Option P)) (v : List V) (n : Nat)
    (sn : Int) (m : Nat) :
    (cluster_round env assoc v n sn = none ∨ cluster_round env assoc v n sn = some none ∨
      cluster_round env assoc v n sn = some (some (sn - 1))) ∧
    cluster_round env assoc v n (-(m : Int)) = some none ∧
    (cluster_while env assoc v n (sn.toNat + 1) sn = none ∨
      ∃ k, cluster_while env assoc v n (sn.toNat + 1) sn = some (some k) ∧ k ≤ sn) ∧
    ((∀ i : Nat, (i : Int) < max sn (n : Int) → (survivor assoc v i).isSome = true) →
      ∃ k, cluster_while env assoc v n (sn.toNat + 1) sn = some (some k) ∧ k ≤ sn ∧
        min sn 0 ≤ k) :=
  ⟨cluster_round_cases env assoc v n sn,
   cluster_round_zero env assoc v n _ (by omega),
   cluster_while_ends env assoc v n (sn.toNat + 1) sn (by omega),
   cluster_while_result env assoc v n (sn.toNat + 1) sn (by omega)⟩

/-- C39 (witness): the three survivors of `v31` with six chime entries. -/
theorem cluster_loop_terminates_witness :
    ∃ k, cluster_while env0 assoc31 v31 6 ((3 : Int).toNat + 1) 3 = some (some k) ∧ k ≤ 3 ∧
      min (3 : Int) 0 ≤ k :=
  (cluster_loop_terminates env0 assoc31 v31 6 3 0).2.2.2 (by
    intro i hi
    have h6 : i < 6 := by omega
    interval_cases i <;> rfl)

/-! ## Clock combine: a survivor at infinite distance -/

/-- A single survivor of offset 1 whose dispersion, and with it the root
distance, is +inf, which is positive: `clock_combine()` computes `y` = 1 / inf
= 0 and `z` = 1 / inf = 0, and `s.offset` = `z / y` is NaN. -/
theorem clock_combine_inf_distance :
    p40.offset = Dbl.fin 1 ∧ root_dist c0 p40 = Dbl.pinf ∧
    Dbl.gt (root_dist c0 p40) (Dbl.fin 0) = true ∧
    (clock_combine env0 c0 [some p40] s32).map S.offset = some Dbl.nan := by
  decide!

end NTP
